import Mathlib

/-!
# Organization handlers of `api/organization.go`

A shallow embedding of the ten HTTP handlers of `src/api/organization.go`.

Each Go handler `func(w http.ResponseWriter, r *http.Request)` becomes a pure
function from the handler's receiver (`a`, holding the database), the database
state before the request and the request, to a `Run`: the database state after
the request, the database methods called (in order, with their arguments), the
`Success`/`Failure` responses written (in order), and whether the handler
panicked on an unchecked type assertion.

The database methods (`a.db.*`), declared outside `src/`, are parameters: a
record `Database σ` of functions over an arbitrary state type `σ`.  A concrete
instance, `ledgerDB`, is modelled from the specification and is used where a
statement needs a concrete database.
-/

namespace Thunderdome

/-! ## Errors -/

/-- Modelled from the spec: the error codes of the `api` package, which are
declared outside `src/`.  `ENOTFOUND` and `EUNAUTHORIZED` are the two used by
`organization.go`; `EINVALID` and `EINTERNAL` stand for the specification's
`ValidationError` and `ConflictInternal`. -/
inductive ErrorCode where
  | ENOTFOUND
  | EUNAUTHORIZED
  | EINVALID
  | EINTERNAL
  deriving DecidableEq

/-- A Go `error` value: either one built by `Errorf` (a code and a message) or
any other error, such as one coming from the SQL driver. -/
inductive GoError where
  | coded (Code : ErrorCode) (Message : String)
  | plain (Message : String)
  deriving DecidableEq

/-- The call `Errorf(code, message)` with no format arguments, as used in
`organization.go`. -/
def Errorf (code : ErrorCode) (message : String) : GoError :=
  GoError.coded code message

/-- The constant `http.StatusOK`. -/
def StatusOK : Nat := 200

/-- The constant `http.StatusInternalServerError`. -/
def StatusInternalServerError : Nat := 500

/-! ## Model types -/

/-- Modelled from the spec: `model.Organization` (declared outside `src/`),
an identifier and a display name. -/
structure Organization where
  Id : String
  Name : String
  deriving DecidableEq

/-- Modelled from the spec: `model.Team` (declared outside `src/`). -/
structure Team where
  Id : String
  Name : String
  deriving DecidableEq

/-- Modelled from the spec: `model.User` (declared outside `src/`); the
handlers read only `User.Id`. -/
structure User where
  Id : String
  Email : String
  deriving DecidableEq

/-- The struct `organizationResponse`. -/
structure organizationResponse where
  Organization : Organization
  Role : String
  deriving DecidableEq

/-- The struct `orgTeamResponse`. -/
structure orgTeamResponse where
  Organization : Organization
  Team : Team
  OrganizationRole : String
  TeamRole : String
  deriving DecidableEq

/-! ## Requests -/

/-- A Go `interface{}` value as produced by `json.Unmarshal` into a
`map[string]interface{}` or stored in a request context.  `null` is Go's
`nil`, which is also what reading an absent map key or context key yields. -/
inductive Value where
  | null
  | bool (b : Bool)
  | number (literal : String)
  | string (s : String)
  | array (items : List Value)
  | object (fields : List (String × Value))

/-- The type assertion `v.(string)`: `none` is the run-time panic Go raises
when `v` does not hold a string. -/
def Value.assertString : Value → Option String
  | Value.string s => some s
  | _ => none

/-- The context keys read by `organization.go` (declared outside `src/`). -/
inductive ContextKey where
  | contextKeyOrgRole
  | contextKeyTeamRole
  deriving DecidableEq

/-- What a handler reads from `r *http.Request`:
`vars` is `mux.Vars(r)` (an absent key reads as the empty string),
`context` is `r.Context().Value(key)`,
`keyVal` is the map returned by `getJSONRequestBody(r, w)`, and
`Limit`, `Offset` are the pair returned by `getLimitOffsetFromRequest(r, w)`;
both helpers are declared outside `src/`. -/
structure Request where
  vars : String → String
  context : ContextKey → Value
  keyVal : String → Value
  Limit : Int
  Offset : Int

/-- The function `strings.ToLower`: every rune is mapped through
`unicode.ToLower`, here the parameter `unicodeToLower` (the Unicode case tables
belong to the Go standard library). -/
def ToLower (unicodeToLower : Char → Char) (s : String) : String :=
  String.mk (s.data.map unicodeToLower)

/-! ## Responses -/

/-- The `data` argument of `Success`. -/
inductive Payload where
  | null
  | organizations (items : List Organization)
  | organization (item : Organization)
  | teams (items : List Team)
  | team (item : Team)
  | users (items : List User)
  | organizationResponse (item : organizationResponse)
  | orgTeamResponse (item : orgTeamResponse)
  deriving DecidableEq

/-- One call of `Success(w, r, status, data, nil)` or
`Failure(w, r, status, err)`. -/
inductive Response where
  | Success (status : Nat) (data : Payload)
  | Failure (status : Nat) (err : GoError)
  deriving DecidableEq

/-! ## The database interface -/

/-- The methods of `a.db` called by `organization.go`, each as a function of
the database state that also returns the state after the call.
A Go result `(T, error)` is an `Except`: the call returns either a value or an
error, the convention the handlers rely on when they read the value only
after finding the error `nil`.  `OrganizationUserRole` returns its pair as it
is, because the caller tests both components. -/
structure Database (σ : Type) where
  OrganizationListByUser : σ → String → Int → Int → List Organization × σ
  OrganizationGet : σ → String → Except GoError Organization × σ
  OrganizationCreate : σ → String → String → Except GoError Organization × σ
  OrganizationTeamList : σ → String → Int → Int → List Team × σ
  OrganizationUserList : σ → String → Int → Int → List User × σ
  OrganizationTeamCreate : σ → String → String → Except GoError Team × σ
  GetUserByEmail : σ → String → Except GoError User × σ
  OrganizationAddUser : σ → String → String → String → Except GoError String × σ
  OrganizationRemoveUser : σ → String → String → Option GoError × σ
  TeamGet : σ → String → Except GoError Team × σ
  OrganizationUserRole : σ → String → String → (String × Option GoError) × σ
  TeamAddUser : σ → String → String → String → Except GoError String × σ

/-- The receiver struct `api`; `organization.go` uses only its `db` field. -/
structure api (σ : Type) where
  db : Database σ

/-- A database method call together with its arguments. -/
inductive DBCall where
  | OrganizationListByUser (UserID : String) (Limit Offset : Int)
  | OrganizationGet (OrgID : String)
  | OrganizationCreate (UserID OrgName : String)
  | OrganizationTeamList (OrgID : String) (Limit Offset : Int)
  | OrganizationUserList (OrgID : String) (Limit Offset : Int)
  | OrganizationTeamCreate (OrgID TeamName : String)
  | GetUserByEmail (UserEmail : String)
  | OrganizationAddUser (OrgID UserID Role : String)
  | OrganizationRemoveUser (OrgID UserID : String)
  | TeamGet (TeamID : String)
  | OrganizationUserRole (UserID OrgID : String)
  | TeamAddUser (TeamID UserID Role : String)
  deriving DecidableEq

/-- The observable outcome of serving one request. -/
structure Run (σ : Type) where
  state : σ
  calls : List DBCall
  responses : List Response
  panicked : Bool

/-- The outcome of a handler that panics after making `calls`. -/
def Run.panic {σ : Type} (s : σ) (calls : List DBCall) : Run σ :=
  ⟨s, calls, [], true⟩

/-! ## The handlers -/

/-- The handler `handleGetOrganizationsByUser`. -/
def handleGetOrganizationsByUser {σ : Type} (a : api σ) (s : σ) (r : Request) : Run σ :=
  let UserID := r.vars "userId"
  match a.db.OrganizationListByUser s UserID r.Limit r.Offset with
  | (Organizations, s1) =>
    ⟨s1, [DBCall.OrganizationListByUser UserID r.Limit r.Offset],
      [Response.Success StatusOK (Payload.organizations Organizations)], false⟩

/-- The handler `handleGetOrganizationByUser`. -/
def handleGetOrganizationByUser {σ : Type} (a : api σ) (s : σ) (r : Request) : Run σ :=
  match (r.context ContextKey.contextKeyOrgRole).assertString with
  | none => Run.panic s []
  | some OrgRole =>
    let OrgID := r.vars "orgId"
    match a.db.OrganizationGet s OrgID with
    | (Except.error err, s1) =>
      ⟨s1, [DBCall.OrganizationGet OrgID],
        [Response.Failure StatusInternalServerError err], false⟩
    | (Except.ok Organization, s1) =>
      ⟨s1, [DBCall.OrganizationGet OrgID],
        [Response.Success StatusOK (Payload.organizationResponse ⟨Organization, OrgRole⟩)], false⟩

/-- The handler `handleCreateOrganization`. -/
def handleCreateOrganization {σ : Type} (a : api σ) (s : σ) (r : Request) : Run σ :=
  let UserID := r.vars "userId"
  match (r.keyVal "name").assertString with
  | none => Run.panic s []
  | some OrgName =>
    match a.db.OrganizationCreate s UserID OrgName with
    | (Except.error err, s1) =>
      ⟨s1, [DBCall.OrganizationCreate UserID OrgName],
        [Response.Failure StatusInternalServerError err], false⟩
    | (Except.ok Organization, s1) =>
      ⟨s1, [DBCall.OrganizationCreate UserID OrgName],
        [Response.Success StatusOK (Payload.organization Organization)], false⟩

/-- The handler `handleGetOrganizationTeams`. -/
def handleGetOrganizationTeams {σ : Type} (a : api σ) (s : σ) (r : Request) : Run σ :=
  let OrgID := r.vars "orgId"
  match a.db.OrganizationTeamList s OrgID r.Limit r.Offset with
  | (Teams, s1) =>
    ⟨s1, [DBCall.OrganizationTeamList OrgID r.Limit r.Offset],
      [Response.Success StatusOK (Payload.teams Teams)], false⟩

/-- The handler `handleGetOrganizationUsers`. -/
def handleGetOrganizationUsers {σ : Type} (a : api σ) (s : σ) (r : Request) : Run σ :=
  let OrgID := r.vars "orgId"
  match a.db.OrganizationUserList s OrgID r.Limit r.Offset with
  | (Teams, s1) =>
    ⟨s1, [DBCall.OrganizationUserList OrgID r.Limit r.Offset],
      [Response.Success StatusOK (Payload.users Teams)], false⟩

/-- The handler `handleCreateOrganizationTeam`. -/
def handleCreateOrganizationTeam {σ : Type} (a : api σ) (s : σ) (r : Request) : Run σ :=
  match (r.keyVal "name").assertString with
  | none => Run.panic s []
  | some TeamName =>
    let OrgID := r.vars "orgId"
    match a.db.OrganizationTeamCreate s OrgID TeamName with
    | (Except.error err, s1) =>
      ⟨s1, [DBCall.OrganizationTeamCreate OrgID TeamName],
        [Response.Failure StatusInternalServerError err], false⟩
    | (Except.ok NewTeam, s1) =>
      ⟨s1, [DBCall.OrganizationTeamCreate OrgID TeamName],
        [Response.Success StatusOK (Payload.team NewTeam)], false⟩

/-- The handler `handleOrganizationAddUser`. -/
def handleOrganizationAddUser {σ : Type} (unicodeToLower : Char → Char)
    (a : api σ) (s : σ) (r : Request) : Run σ :=
  let OrgID := r.vars "orgId"
  match (r.keyVal "email").assertString with
  | none => Run.panic s []
  | some email =>
    let UserEmail := ToLower unicodeToLower email
    match (r.keyVal "role").assertString with
    | none => Run.panic s []
    | some Role =>
      match a.db.GetUserByEmail s UserEmail with
      | (Except.error _, s1) =>
        ⟨s1, [DBCall.GetUserByEmail UserEmail],
          [Response.Failure StatusInternalServerError
            (Errorf ErrorCode.ENOTFOUND "USER_NOT_FOUND")], false⟩
      | (Except.ok User, s1) =>
        match a.db.OrganizationAddUser s1 OrgID User.Id Role with
        | (Except.error err, s2) =>
          ⟨s2, [DBCall.GetUserByEmail UserEmail, DBCall.OrganizationAddUser OrgID User.Id Role],
            [Response.Failure StatusInternalServerError err], false⟩
        | (Except.ok _, s2) =>
          ⟨s2, [DBCall.GetUserByEmail UserEmail, DBCall.OrganizationAddUser OrgID User.Id Role],
            [Response.Success StatusOK Payload.null], false⟩

/-- The handler `handleOrganizationRemoveUser`. -/
def handleOrganizationRemoveUser {σ : Type} (a : api σ) (s : σ) (r : Request) : Run σ :=
  let OrgID := r.vars "orgId"
  let UserID := r.vars "userId"
  match a.db.OrganizationRemoveUser s OrgID UserID with
  | (some err, s1) =>
    ⟨s1, [DBCall.OrganizationRemoveUser OrgID UserID],
      [Response.Failure StatusInternalServerError err], false⟩
  | (none, s1) =>
    ⟨s1, [DBCall.OrganizationRemoveUser OrgID UserID],
      [Response.Success StatusOK Payload.null], false⟩

/-- The handler `handleGetOrganizationTeamByUser`. -/
def handleGetOrganizationTeamByUser {σ : Type} (a : api σ) (s : σ) (r : Request) : Run σ :=
  match (r.context ContextKey.contextKeyOrgRole).assertString with
  | none => Run.panic s []
  | some OrgRole =>
    match (r.context ContextKey.contextKeyTeamRole).assertString with
    | none => Run.panic s []
    | some TeamRole =>
      let OrgID := r.vars "orgId"
      let TeamID := r.vars "teamId"
      match a.db.OrganizationGet s OrgID with
      | (Except.error err, s1) =>
        ⟨s1, [DBCall.OrganizationGet OrgID],
          [Response.Failure StatusInternalServerError err], false⟩
      | (Except.ok Organization, s1) =>
        match a.db.TeamGet s1 TeamID with
        | (Except.error err, s2) =>
          ⟨s2, [DBCall.OrganizationGet OrgID, DBCall.TeamGet TeamID],
            [Response.Failure StatusInternalServerError err], false⟩
        | (Except.ok Team, s2) =>
          ⟨s2, [DBCall.OrganizationGet OrgID, DBCall.TeamGet TeamID],
            [Response.Success StatusOK
              (Payload.orgTeamResponse ⟨Organization, Team, OrgRole, TeamRole⟩)], false⟩

/-- The handler `handleOrganizationTeamAddUser`. -/
def handleOrganizationTeamAddUser {σ : Type} (unicodeToLower : Char → Char)
    (a : api σ) (s : σ) (r : Request) : Run σ :=
  let OrgID := r.vars "orgId"
  let TeamID := r.vars "teamId"
  match (r.keyVal "email").assertString with
  | none => Run.panic s []
  | some email =>
    let UserEmail := ToLower unicodeToLower email
    match (r.keyVal "role").assertString with
    | none => Run.panic s []
    | some Role =>
      match a.db.GetUserByEmail s UserEmail with
      | (Except.error _, s1) =>
        ⟨s1, [DBCall.GetUserByEmail UserEmail],
          [Response.Failure StatusInternalServerError
            (Errorf ErrorCode.ENOTFOUND "USER_NOT_FOUND")], false⟩
      | (Except.ok User, s1) =>
        match a.db.OrganizationUserRole s1 User.Id OrgID with
        | ((OrgRole, roleErr), s2) =>
          if OrgRole = "" ∨ roleErr ≠ none then
            ⟨s2, [DBCall.GetUserByEmail UserEmail, DBCall.OrganizationUserRole User.Id OrgID],
              [Response.Failure StatusInternalServerError
                (Errorf ErrorCode.EUNAUTHORIZED "ORGANIZATION_USER_REQUIRED")], false⟩
          else
            match a.db.TeamAddUser s2 TeamID User.Id Role with
            | (Except.error err, s3) =>
              ⟨s3, [DBCall.GetUserByEmail UserEmail, DBCall.OrganizationUserRole User.Id OrgID,
                  DBCall.TeamAddUser TeamID User.Id Role],
                [Response.Failure StatusInternalServerError err], false⟩
            | (Except.ok _, s3) =>
              ⟨s3, [DBCall.GetUserByEmail UserEmail, DBCall.OrganizationUserRole User.Id OrgID,
                  DBCall.TeamAddUser TeamID User.Id Role],
                [Response.Success StatusOK Payload.null], false⟩

/-! ## A database modelled from the specification -/

/-- Modelled from the spec: an `OrganizationMembership` row of the Membership
Ledger, the pair (organization, user) with its role.  The tables behind `a.db`
are outside `src/`. -/
structure OrganizationMembership where
  OrganizationId : String
  UserId : String
  Role : String
  deriving DecidableEq

/-- Modelled from the spec: a `TeamMembership` row of the Membership Ledger,
the pair (team, user) with its role.  The tables behind `a.db` are outside
`src/`. -/
structure TeamMembership where
  TeamId : String
  UserId : String
  Role : String
  deriving DecidableEq

/-- Modelled from the spec: a team of the Hierarchy Catalog together with the
identifier of its owning organization.  The tables behind `a.db` are outside
`src/`. -/
structure TeamRecord where
  Team : Team
  OrganizationId : String
  deriving DecidableEq

/-- Modelled from the spec: the state behind `a.db` (outside `src/`): the
Identity Store's users, the Hierarchy Catalog (organizations, and teams with
their owning organization) and the Membership Ledger (organization and team
memberships), with a counter for fresh identifiers. -/
structure Ledger where
  users : List User
  organizations : List Organization
  teams : List TeamRecord
  organizationUsers : List OrganizationMembership
  teamUsers : List TeamMembership
  nextId : Nat
  deriving DecidableEq

namespace Ledger

/-- Modelled from the spec: `organizationRole(user, org) → Role | None` of the
Role Resolver (outside `src/`); absence means no standing in the
organization. -/
def organizationRole (s : Ledger) (user org : String) : Option String :=
  (s.organizationUsers.find?
    (fun m => decide (m.OrganizationId = org ∧ m.UserId = user))).map (fun m => m.Role)

/-- Modelled from the spec: `teamRole(user, team) → Role | None` of the Role
Resolver (outside `src/`). -/
def teamRole (s : Ledger) (user team : String) : Option String :=
  (s.teamUsers.find?
    (fun m => decide (m.TeamId = team ∧ m.UserId = user))).map (fun m => m.Role)

/-- Modelled from the spec: the containment relation of the Hierarchy Catalog
(outside `src/`), team `team` is owned by organization `org`. -/
def teamBelongs (s : Ledger) (team org : String) : Bool :=
  s.teams.any (fun t => decide (t.Team.Id = team ∧ t.OrganizationId = org))

/-- Modelled from the spec: role values accepted on the wire are the strings
`MEMBER` and `ADMIN`, case-sensitive; the check itself is outside `src/`. -/
def validRole (role : String) : Bool :=
  decide (role = "MEMBER" ∨ role = "ADMIN")

/-- Modelled from the spec: pagination (outside `src/`), a non-positive limit
means no limit. -/
def page {α : Type} (xs : List α) (limit offset : Int) : List α :=
  if limit ≤ 0 then xs.drop offset.toNat else (xs.drop offset.toNat).take limit.toNat

/-- Modelled from the spec: `findUserByEmail(normalizedEmail) → User | NotFound`
of the Identity Store (outside `src/`). -/
def GetUserByEmail (s : Ledger) (UserEmail : String) : Except GoError User × Ledger :=
  match s.users.find? (fun u => decide (u.Email = UserEmail)) with
  | some u => (Except.ok u, s)
  | none => (Except.error (Errorf ErrorCode.ENOTFOUND "user not found"), s)

/-- Modelled from the spec: `organizationRole` as the Go method
`OrganizationUserRole` (outside `src/`), which reports an absent membership
as the empty role with an error. -/
def OrganizationUserRole (s : Ledger) (UserID OrgID : String) :
    (String × Option GoError) × Ledger :=
  match s.organizationRole UserID OrgID with
  | some role => ((role, none), s)
  | none => (("", some (Errorf ErrorCode.ENOTFOUND "organization user not found")), s)

/-- Modelled from the spec: `getOrganization(id)`, which fails with `NotFound`
if absent; the method is outside `src/`. -/
def OrganizationGet (s : Ledger) (OrgID : String) : Except GoError Organization × Ledger :=
  match s.organizations.find? (fun o => decide (o.Id = OrgID)) with
  | some o => (Except.ok o, s)
  | none => (Except.error (Errorf ErrorCode.ENOTFOUND "organization not found"), s)

/-- Modelled from the spec: `getTeam(id)`, which fails with `NotFound` if
absent; the method is outside `src/`. -/
def TeamGet (s : Ledger) (TeamID : String) : Except GoError Team × Ledger :=
  match s.teams.find? (fun t => decide (t.Team.Id = TeamID)) with
  | some t => (Except.ok t.Team, s)
  | none => (Except.error (Errorf ErrorCode.ENOTFOUND "team not found"), s)

/-- Modelled from the spec: the write of `addOrganizationUser` (outside
`src/`).  An unrecognized role is a `ValidationError`, an absent organization
is `NotFound`, and re-adding a user updates the role rather than duplicating
the row. -/
def OrganizationAddUser (s : Ledger) (OrgID UserID Role : String) :
    Except GoError String × Ledger :=
  if validRole Role = false then
    (Except.error (Errorf ErrorCode.EINVALID "invalid role"), s)
  else if s.organizations.any (fun o => decide (o.Id = OrgID)) = false then
    (Except.error (Errorf ErrorCode.ENOTFOUND "organization not found"), s)
  else
    (Except.ok OrgID,
      { s with
        organizationUsers :=
          s.organizationUsers.filter
              (fun m => !(decide (m.OrganizationId = OrgID ∧ m.UserId = UserID)))
            ++ [⟨OrgID, UserID, Role⟩] })

/-- Modelled from the spec: the write of `addTeamUser` (outside `src/`).  The
method receives no organization identifier; an unrecognized role is a
`ValidationError`, an absent team is `NotFound`, and the row is unique per
(team, user). -/
def TeamAddUser (s : Ledger) (TeamID UserID Role : String) :
    Except GoError String × Ledger :=
  if validRole Role = false then
    (Except.error (Errorf ErrorCode.EINVALID "invalid role"), s)
  else if s.teams.any (fun t => decide (t.Team.Id = TeamID)) = false then
    (Except.error (Errorf ErrorCode.ENOTFOUND "team not found"), s)
  else
    (Except.ok TeamID,
      { s with
        teamUsers :=
          s.teamUsers.filter (fun m => !(decide (m.TeamId = TeamID ∧ m.UserId = UserID)))
            ++ [⟨TeamID, UserID, Role⟩] })

/-- Modelled from the spec: `removeOrganizationUser(org, user)` (outside
`src/`): removes the `OrganizationMembership` and, in the same step, every
`TeamMembership` of that user under a team owned by that organization;
removing a non-member is a no-op success. -/
def OrganizationRemoveUser (s : Ledger) (OrgID UserID : String) : Option GoError × Ledger :=
  (none,
    { s with
      organizationUsers :=
        s.organizationUsers.filter
          (fun m => !(decide (m.OrganizationId = OrgID ∧ m.UserId = UserID))),
      teamUsers :=
        s.teamUsers.filter
          (fun m => !(decide (m.UserId = UserID) && s.teamBelongs m.TeamId OrgID)) })

/-- Modelled from the spec: `createOrganization(founder, name)` (outside
`src/`): fails with `ValidationError` if the name is empty, otherwise creates
the organization and the founder's `ADMIN` membership in one step. -/
def OrganizationCreate (s : Ledger) (UserID OrgName : String) :
    Except GoError Organization × Ledger :=
  if OrgName = "" then
    (Except.error (Errorf ErrorCode.EINVALID "invalid organization name"), s)
  else
    let o : Organization := ⟨"org-" ++ Nat.repr s.nextId, OrgName⟩
    (Except.ok o,
      { s with
        organizations := s.organizations ++ [o],
        organizationUsers := s.organizationUsers ++ [⟨o.Id, UserID, "ADMIN"⟩],
        nextId := s.nextId + 1 })

/-- Modelled from the spec: `createTeam(org, name)` (outside `src/`): fails
with `NotFound` if the organization does not exist and with `ValidationError`
if the name is empty. -/
def OrganizationTeamCreate (s : Ledger) (OrgID TeamName : String) :
    Except GoError Team × Ledger :=
  if s.organizations.any (fun o => decide (o.Id = OrgID)) = false then
    (Except.error (Errorf ErrorCode.ENOTFOUND "organization not found"), s)
  else if TeamName = "" then
    (Except.error (Errorf ErrorCode.EINVALID "invalid team name"), s)
  else
    let t : Team := ⟨"team-" ++ Nat.repr s.nextId, TeamName⟩
    (Except.ok t, { s with teams := s.teams ++ [⟨t, OrgID⟩], nextId := s.nextId + 1 })

/-- Modelled from the spec: `listOrganizationsForUser(user, limit, offset)`
(outside `src/`), in creation order. -/
def OrganizationListByUser (s : Ledger) (UserID : String) (Limit Offset : Int) :
    List Organization × Ledger :=
  (page (s.organizations.filter
      (fun o => s.organizationUsers.any
        (fun m => decide (m.OrganizationId = o.Id ∧ m.UserId = UserID)))) Limit Offset, s)

/-- Modelled from the spec: `listTeams(org, limit, offset)` (outside `src/`),
in creation order; an empty result is no error. -/
def OrganizationTeamList (s : Ledger) (OrgID : String) (Limit Offset : Int) :
    List Team × Ledger :=
  (page ((s.teams.filter (fun t => decide (t.OrganizationId = OrgID))).map
      (fun t => t.Team)) Limit Offset, s)

/-- Modelled from the spec: `listUsersForOrganization(org, limit, offset)`
(outside `src/`). -/
def OrganizationUserList (s : Ledger) (OrgID : String) (Limit Offset : Int) :
    List User × Ledger :=
  (page (s.users.filter
      (fun u => s.organizationUsers.any
        (fun m => decide (m.OrganizationId = OrgID ∧ m.UserId = u.Id)))) Limit Offset, s)

end Ledger

/-- Modelled from the spec: the database behind `a.db` (outside `src/`), the
methods of `Ledger` gathered as a `Database`. -/
def ledgerDB : Database Ledger where
  OrganizationListByUser := Ledger.OrganizationListByUser
  OrganizationGet := Ledger.OrganizationGet
  OrganizationCreate := Ledger.OrganizationCreate
  OrganizationTeamList := Ledger.OrganizationTeamList
  OrganizationUserList := Ledger.OrganizationUserList
  OrganizationTeamCreate := Ledger.OrganizationTeamCreate
  GetUserByEmail := Ledger.GetUserByEmail
  OrganizationAddUser := Ledger.OrganizationAddUser
  OrganizationRemoveUser := Ledger.OrganizationRemoveUser
  TeamGet := Ledger.TeamGet
  OrganizationUserRole := Ledger.OrganizationUserRole
  TeamAddUser := Ledger.TeamAddUser

/-- The receiver `a` over the modelled database. -/
def ledgerApi : api Ledger := ⟨ledgerDB⟩

/-! ## Sample data -/

/-- A sample state: organizations `acme` and `globex`, team `eng` owned by
`acme` and team `ops` owned by `globex`; user `u1` administers `acme`, user
`u2` is a member of `acme`, of its team `eng` and of `globex`, users `u3` and
`u4` are members of nothing. -/
def sampleLedger : Ledger where
  users := [⟨"u1", "u1@x.com"⟩, ⟨"u2", "u2@x.com"⟩, ⟨"u3", "u3@x.com"⟩,
    ⟨"u4", "user@example.com"⟩]
  organizations := [⟨"acme", "Acme"⟩, ⟨"globex", "Globex"⟩]
  teams := [⟨⟨"eng", "Eng"⟩, "acme"⟩, ⟨⟨"ops", "Ops"⟩, "globex"⟩]
  organizationUsers :=
    [⟨"acme", "u1", "ADMIN"⟩, ⟨"acme", "u2", "MEMBER"⟩, ⟨"globex", "u2", "MEMBER"⟩]
  teamUsers := [⟨"eng", "u2", "MEMBER"⟩]
  nextId := 0

/-- A request given by its path variables, context roles and JSON body, each
as an association list. -/
def mkRequest (vars : List (String × String)) (context : List (ContextKey × String))
    (body : List (String × Value)) : Request where
  vars := fun k => ((vars.find? (fun p => decide (p.1 = k))).map (fun p => p.2)).getD ""
  context := fun k =>
    ((context.find? (fun p => decide (p.1 = k))).map (fun p => Value.string p.2)).getD Value.null
  keyVal := fun k => ((body.find? (fun p => decide (p.1 = k))).map (fun p => p.2)).getD Value.null
  Limit := 20
  Offset := 0

/-! ## Letter case -/

/-- Two strings differ at most in letter case: they have the same length and,
position by position, their runes have the same lower-case form. -/
def differOnlyInCase (unicodeToLower : Char → Char) : List Char → List Char → Bool
  | [], [] => true
  | c1 :: t1, c2 :: t2 =>
    decide (unicodeToLower c1 = unicodeToLower c2) && differOnlyInCase unicodeToLower t1 t2
  | _, _ => false

/-- A request to `POST /organizations/{orgId}/teams/{teamId}/users` for `email`
and `role`. -/
def teamAddRequest (org team email role : String) : Request :=
  mkRequest [("orgId", org), ("teamId", team)] []
    [("email", Value.string email), ("role", Value.string role)]

/-- A request to `POST /organizations/{orgId}/users` for `email` and `role`. -/
def orgAddRequest (org email role : String) : Request :=
  mkRequest [("orgId", org)] [] [("email", Value.string email), ("role", Value.string role)]

/-- A request to `DELETE /organizations/{orgId}/users/{userId}`. -/
def orgRemoveRequest (org user : String) : Request :=
  mkRequest [("orgId", org), ("userId", user)] [] []

/-- A request to `GET /organizations/{orgId}/teams/{teamId}` whose context
holds the given organization role and team role. -/
def orgTeamGetRequest (org team orgRole teamRole : String) : Request :=
  mkRequest [("orgId", org), ("teamId", team)]
    [(ContextKey.contextKeyOrgRole, orgRole), (ContextKey.contextKeyTeamRole, teamRole)] []

/-! ## The handlers as one family -/

/-- The ten handlers of `organization.go`. -/
inductive Handler where
  | GetOrganizationsByUser
  | GetOrganizationByUser
  | CreateOrganization
  | GetOrganizationTeams
  | GetOrganizationUsers
  | CreateOrganizationTeam
  | OrganizationAddUser
  | OrganizationRemoveUser
  | GetOrganizationTeamByUser
  | OrganizationTeamAddUser
  deriving DecidableEq

/-- Serving a request with the named handler. -/
def Handler.serve {σ : Type} (lower : Char → Char) (a : api σ) (s : σ) (r : Request) :
    Handler → Run σ
  | Handler.GetOrganizationsByUser => handleGetOrganizationsByUser a s r
  | Handler.GetOrganizationByUser => handleGetOrganizationByUser a s r
  | Handler.CreateOrganization => handleCreateOrganization a s r
  | Handler.GetOrganizationTeams => handleGetOrganizationTeams a s r
  | Handler.GetOrganizationUsers => handleGetOrganizationUsers a s r
  | Handler.CreateOrganizationTeam => handleCreateOrganizationTeam a s r
  | Handler.OrganizationAddUser => handleOrganizationAddUser lower a s r
  | Handler.OrganizationRemoveUser => handleOrganizationRemoveUser a s r
  | Handler.GetOrganizationTeamByUser => handleGetOrganizationTeamByUser a s r
  | Handler.OrganizationTeamAddUser => handleOrganizationTeamAddUser lower a s r

/-- The values a handler asserts to be strings are strings: the body fields
(`name`, or `email` and `role`) and the role keys of the request context that
the handler reads. -/
def Handler.assertionsHold (r : Request) : Handler → Bool
  | Handler.GetOrganizationsByUser => true
  | Handler.GetOrganizationByUser =>
    (r.context ContextKey.contextKeyOrgRole).assertString.isSome
  | Handler.CreateOrganization => (r.keyVal "name").assertString.isSome
  | Handler.GetOrganizationTeams => true
  | Handler.GetOrganizationUsers => true
  | Handler.CreateOrganizationTeam => (r.keyVal "name").assertString.isSome
  | Handler.OrganizationAddUser =>
    (r.keyVal "email").assertString.isSome && (r.keyVal "role").assertString.isSome
  | Handler.OrganizationRemoveUser => true
  | Handler.GetOrganizationTeamByUser =>
    (r.context ContextKey.contextKeyOrgRole).assertString.isSome
      && (r.context ContextKey.contextKeyTeamRole).assertString.isSome
  | Handler.OrganizationTeamAddUser =>
    (r.keyVal "email").assertString.isSome && (r.keyVal "role").assertString.isSome

/-! ## Step lemmas for the two add-user handlers -/

section Steps

variable {σ : Type}

theorem teamAdd_lookup_error (lower : Char → Char) (a : api σ) (s : σ) (r : Request)
    (email role : String) (e : GoError) (s1 : σ)
    (hEmail : r.keyVal "email" = Value.string email)
    (hRole : r.keyVal "role" = Value.string role)
    (hUser : a.db.GetUserByEmail s (ToLower lower email) = (Except.error e, s1)) :
    handleOrganizationTeamAddUser lower a s r =
      ⟨s1, [DBCall.GetUserByEmail (ToLower lower email)],
        [Response.Failure StatusInternalServerError
          (Errorf ErrorCode.ENOTFOUND "USER_NOT_FOUND")], false⟩ := by
  simp only [handleOrganizationTeamAddUser, hEmail, hRole, Value.assertString, hUser]

theorem teamAdd_denied (lower : Char → Char) (a : api σ) (s : σ) (r : Request)
    (email role : String) (u : User) (s1 s2 : σ) (orgRole : String) (roleErr : Option GoError)
    (hEmail : r.keyVal "email" = Value.string email)
    (hRole : r.keyVal "role" = Value.string role)
    (hUser : a.db.GetUserByEmail s (ToLower lower email) = (Except.ok u, s1))
    (hOrg : a.db.OrganizationUserRole s1 u.Id (r.vars "orgId") = ((orgRole, roleErr), s2))
    (hDenied : orgRole = "" ∨ roleErr ≠ none) :
    handleOrganizationTeamAddUser lower a s r =
      ⟨s2, [DBCall.GetUserByEmail (ToLower lower email),
          DBCall.OrganizationUserRole u.Id (r.vars "orgId")],
        [Response.Failure StatusInternalServerError
          (Errorf ErrorCode.EUNAUTHORIZED "ORGANIZATION_USER_REQUIRED")], false⟩ := by
  simp only [handleOrganizationTeamAddUser, hEmail, hRole, Value.assertString, hUser, hOrg,
    if_pos hDenied]

theorem teamAdd_write_error (lower : Char → Char) (a : api σ) (s : σ) (r : Request)
    (email role : String) (u : User) (s1 s2 s3 : σ) (orgRole : String) (err : GoError)
    (hEmail : r.keyVal "email" = Value.string email)
    (hRole : r.keyVal "role" = Value.string role)
    (hUser : a.db.GetUserByEmail s (ToLower lower email) = (Except.ok u, s1))
    (hOrg : a.db.OrganizationUserRole s1 u.Id (r.vars "orgId") = ((orgRole, none), s2))
    (hMember : orgRole ≠ "")
    (hAdd : a.db.TeamAddUser s2 (r.vars "teamId") u.Id role = (Except.error err, s3)) :
    handleOrganizationTeamAddUser lower a s r =
      ⟨s3, [DBCall.GetUserByEmail (ToLower lower email),
          DBCall.OrganizationUserRole u.Id (r.vars "orgId"),
          DBCall.TeamAddUser (r.vars "teamId") u.Id role],
        [Response.Failure StatusInternalServerError err], false⟩ := by
  have hNot : ¬ (orgRole = "" ∨ (none : Option GoError) ≠ none) := by simp [hMember]
  simp only [handleOrganizationTeamAddUser, hEmail, hRole, Value.assertString, hUser, hOrg,
    if_neg hNot, hAdd]

theorem teamAdd_write_ok (lower : Char → Char) (a : api σ) (s : σ) (r : Request)
    (email role : String) (u : User) (s1 s2 s3 : σ) (orgRole : String) (v : String)
    (hEmail : r.keyVal "email" = Value.string email)
    (hRole : r.keyVal "role" = Value.string role)
    (hUser : a.db.GetUserByEmail s (ToLower lower email) = (Except.ok u, s1))
    (hOrg : a.db.OrganizationUserRole s1 u.Id (r.vars "orgId") = ((orgRole, none), s2))
    (hMember : orgRole ≠ "")
    (hAdd : a.db.TeamAddUser s2 (r.vars "teamId") u.Id role = (Except.ok v, s3)) :
    handleOrganizationTeamAddUser lower a s r =
      ⟨s3, [DBCall.GetUserByEmail (ToLower lower email),
          DBCall.OrganizationUserRole u.Id (r.vars "orgId"),
          DBCall.TeamAddUser (r.vars "teamId") u.Id role],
        [Response.Success StatusOK Payload.null], false⟩ := by
  have hNot : ¬ (orgRole = "" ∨ (none : Option GoError) ≠ none) := by simp [hMember]
  simp only [handleOrganizationTeamAddUser, hEmail, hRole, Value.assertString, hUser, hOrg,
    if_neg hNot, hAdd]

theorem orgAdd_lookup_error (lower : Char → Char) (a : api σ) (s : σ) (r : Request)
    (email role : String) (e : GoError) (s1 : σ)
    (hEmail : r.keyVal "email" = Value.string email)
    (hRole : r.keyVal "role" = Value.string role)
    (hUser : a.db.GetUserByEmail s (ToLower lower email) = (Except.error e, s1)) :
    handleOrganizationAddUser lower a s r =
      ⟨s1, [DBCall.GetUserByEmail (ToLower lower email)],
        [Response.Failure StatusInternalServerError
          (Errorf ErrorCode.ENOTFOUND "USER_NOT_FOUND")], false⟩ := by
  simp only [handleOrganizationAddUser, hEmail, hRole, Value.assertString, hUser]

theorem orgAdd_write_error (lower : Char → Char) (a : api σ) (s : σ) (r : Request)
    (email role : String) (u : User) (s1 s2 : σ) (err : GoError)
    (hEmail : r.keyVal "email" = Value.string email)
    (hRole : r.keyVal "role" = Value.string role)
    (hUser : a.db.GetUserByEmail s (ToLower lower email) = (Except.ok u, s1))
    (hAdd : a.db.OrganizationAddUser s1 (r.vars "orgId") u.Id role = (Except.error err, s2)) :
    handleOrganizationAddUser lower a s r =
      ⟨s2, [DBCall.GetUserByEmail (ToLower lower email),
          DBCall.OrganizationAddUser (r.vars "orgId") u.Id role],
        [Response.Failure StatusInternalServerError err], false⟩ := by
  simp only [handleOrganizationAddUser, hEmail, hRole, Value.assertString, hUser, hAdd]

theorem orgAdd_write_ok (lower : Char → Char) (a : api σ) (s : σ) (r : Request)
    (email role : String) (u : User) (s1 s2 : σ) (v : String)
    (hEmail : r.keyVal "email" = Value.string email)
    (hRole : r.keyVal "role" = Value.string role)
    (hUser : a.db.GetUserByEmail s (ToLower lower email) = (Except.ok u, s1))
    (hAdd : a.db.OrganizationAddUser s1 (r.vars "orgId") u.Id role = (Except.ok v, s2)) :
    handleOrganizationAddUser lower a s r =
      ⟨s2, [DBCall.GetUserByEmail (ToLower lower email),
          DBCall.OrganizationAddUser (r.vars "orgId") u.Id role],
        [Response.Success StatusOK Payload.null], false⟩ := by
  simp only [handleOrganizationAddUser, hEmail, hRole, Value.assertString, hUser, hAdd]

theorem org_add_calls (lower : Char → Char) (a : api σ) (s : σ) (r : Request)
    (email role : String) (u : User) (s1 : σ)
    (hEmail : r.keyVal "email" = Value.string email)
    (hRole : r.keyVal "role" = Value.string role)
    (hUser : a.db.GetUserByEmail s (ToLower lower email) = (Except.ok u, s1)) :
    (handleOrganizationAddUser lower a s r).calls =
      [DBCall.GetUserByEmail (ToLower lower email),
        DBCall.OrganizationAddUser (r.vars "orgId") u.Id role] := by
  rcases hAdd : a.db.OrganizationAddUser s1 (r.vars "orgId") u.Id role with ⟨err | v, s2⟩
  · rw [orgAdd_write_error lower a s r email role u s1 s2 err hEmail hRole hUser hAdd]
  · rw [orgAdd_write_ok lower a s r email role u s1 s2 v hEmail hRole hUser hAdd]

theorem team_add_calls_head (lower : Char → Char) (a : api σ) (s : σ) (r : Request)
    (email role : String) (u : User) (s1 : σ)
    (hEmail : r.keyVal "email" = Value.string email)
    (hRole : r.keyVal "role" = Value.string role)
    (hUser : a.db.GetUserByEmail s (ToLower lower email) = (Except.ok u, s1)) :
    ∃ rest, (handleOrganizationTeamAddUser lower a s r).calls =
      DBCall.GetUserByEmail (ToLower lower email) :: rest := by
  rcases hOrg : a.db.OrganizationUserRole s1 u.Id (r.vars "orgId") with
    ⟨⟨orgRole, roleErr⟩, s2⟩
  by_cases hDenied : orgRole = "" ∨ roleErr ≠ none
  · rw [teamAdd_denied lower a s r email role u s1 s2 orgRole roleErr hEmail hRole hUser
      hOrg hDenied]
    exact ⟨_, rfl⟩
  · have hMember : orgRole ≠ "" := fun h => hDenied (Or.inl h)
    have hNone : roleErr = none := by
      by_contra h
      exact hDenied (Or.inr h)
    subst hNone
    rcases hAdd : a.db.TeamAddUser s2 (r.vars "teamId") u.Id role with ⟨err | v, s3⟩
    · rw [teamAdd_write_error lower a s r email role u s1 s2 s3 orgRole err hEmail hRole hUser
        hOrg hMember hAdd]
      exact ⟨_, rfl⟩
    · rw [teamAdd_write_ok lower a s r email role u s1 s2 s3 orgRole v hEmail hRole hUser
        hOrg hMember hAdd]
      exact ⟨_, rfl⟩

theorem Value.assertString_eq_some (v : Value) (str : String)
    (h : v.assertString = some str) : v = Value.string str := by
  cases v <;> simp [Value.assertString] at h
  rw [h]

theorem teamAdd_panic (lower : Char → Char) (a : api σ) (s : σ) (r : Request)
    (h : (r.keyVal "email").assertString = none ∨ (r.keyVal "role").assertString = none) :
    handleOrganizationTeamAddUser lower a s r = Run.panic s [] := by
  rcases h with h | h
  · simp only [handleOrganizationTeamAddUser, h]
  · simp only [handleOrganizationTeamAddUser, h]
    split <;> rfl

theorem orgAdd_panic (lower : Char → Char) (a : api σ) (s : σ) (r : Request)
    (h : (r.keyVal "email").assertString = none ∨ (r.keyVal "role").assertString = none) :
    handleOrganizationAddUser lower a s r = Run.panic s [] := by
  rcases h with h | h
  · simp only [handleOrganizationAddUser, h]
  · simp only [handleOrganizationAddUser, h]
    split <;> rfl

end Steps

/-! ## Adding a user to a team -/

/-- C1: in `handleOrganizationTeamAddUser`, for every request whose body email
resolves (lower-cased) to a user, if `db.OrganizationUserRole(user, org)`
returns the empty role or an error, then `db.TeamAddUser` is not called with
any arguments; when the body carries a string `role` the run is: the lookup and
the role query as the only database calls, the single response
`Failure(500, Errorf(EUNAUTHORIZED, "ORGANIZATION_USER_REQUIRED"))`, and the
database left in the state the role query returned; when `role` is not a
string the handler panics at the type assertion before any database call. -/
theorem team_add_user_requires_organization_user {σ : Type} (lower : Char → Char)
    (a : api σ) (s : σ) (r : Request) (email : String) (u : User) (s1 s2 : σ)
    (orgRole : String) (roleErr : Option GoError)
    (hEmail : r.keyVal "email" = Value.string email)
    (hUser : a.db.GetUserByEmail s (ToLower lower email) = (Except.ok u, s1))
    (hOrg : a.db.OrganizationUserRole s1 u.Id (r.vars "orgId") = ((orgRole, roleErr), s2))
    (hDenied : orgRole = "" ∨ roleErr ≠ none) :
    (∀ t uid ro, DBCall.TeamAddUser t uid ro ∉ (handleOrganizationTeamAddUser lower a s r).calls)
      ∧ (∀ role, r.keyVal "role" = Value.string role →
          handleOrganizationTeamAddUser lower a s r =
            ⟨s2, [DBCall.GetUserByEmail (ToLower lower email),
                DBCall.OrganizationUserRole u.Id (r.vars "orgId")],
              [Response.Failure StatusInternalServerError
                (Errorf ErrorCode.EUNAUTHORIZED "ORGANIZATION_USER_REQUIRED")], false⟩)
      ∧ ((r.keyVal "role").assertString = none →
          handleOrganizationTeamAddUser lower a s r = Run.panic s []) := by
  have hWell : ∀ role, r.keyVal "role" = Value.string role →
      handleOrganizationTeamAddUser lower a s r =
        ⟨s2, [DBCall.GetUserByEmail (ToLower lower email),
            DBCall.OrganizationUserRole u.Id (r.vars "orgId")],
          [Response.Failure StatusInternalServerError
            (Errorf ErrorCode.EUNAUTHORIZED "ORGANIZATION_USER_REQUIRED")], false⟩ :=
    fun role hRole =>
      teamAdd_denied lower a s r email role u s1 s2 orgRole roleErr hEmail hRole hUser hOrg hDenied
  have hPanic : (r.keyVal "role").assertString = none →
      handleOrganizationTeamAddUser lower a s r = Run.panic s [] :=
    fun h => teamAdd_panic lower a s r (Or.inr h)
  refine ⟨?_, hWell, hPanic⟩
  intro t uid ro
  rcases h : (r.keyVal "role").assertString with _ | role
  · rw [hPanic h]
    simp [Run.panic]
  · rw [hWell role (Value.assertString_eq_some _ _ h)]
    simp

/-- Witness for C1 on the sample ledger: `u3` exists but is not in `acme`. -/
theorem team_add_user_requires_organization_user_witness :
    (teamAddRequest "acme" "eng" "U3@x.com" "MEMBER").keyVal "email" = Value.string "U3@x.com"
      ∧ ledgerApi.db.GetUserByEmail sampleLedger (ToLower Char.toLower "U3@x.com")
          = (Except.ok ⟨"u3", "u3@x.com"⟩, sampleLedger)
      ∧ ledgerApi.db.OrganizationUserRole sampleLedger "u3" "acme"
          = (("", some (Errorf ErrorCode.ENOTFOUND "organization user not found")), sampleLedger)
      ∧ handleOrganizationTeamAddUser Char.toLower ledgerApi sampleLedger
          (teamAddRequest "acme" "eng" "U3@x.com" "MEMBER") =
        ⟨sampleLedger, [DBCall.GetUserByEmail "u3@x.com", DBCall.OrganizationUserRole "u3" "acme"],
          [Response.Failure StatusInternalServerError
            (Errorf ErrorCode.EUNAUTHORIZED "ORGANIZATION_USER_REQUIRED")], false⟩ :=
  ⟨rfl, rfl, rfl,
    (team_add_user_requires_organization_user Char.toLower ledgerApi sampleLedger
      (teamAddRequest "acme" "eng" "U3@x.com" "MEMBER") "U3@x.com" ⟨"u3", "u3@x.com"⟩
      sampleLedger sampleLedger ""
      (some (Errorf ErrorCode.ENOTFOUND "organization user not found"))
      rfl rfl rfl (Or.inl rfl)).2.1 "MEMBER" rfl⟩

/-- C9: order of checks in `handleOrganizationTeamAddUser`, for every request.
(1) If the body carries `email` and `role` as strings and `db.GetUserByEmail`
fails, the single response is `Failure(500, Errorf(ENOTFOUND, "USER_NOT_FOUND"))`
and the lookup is the only database call, so `db.OrganizationUserRole` is not
consulted, whatever it would return.
(2) If `db.TeamAddUser` is called at all, then the body carried `email` and
`role` as strings, the lookup returned a user, `db.OrganizationUserRole`
returned a non-empty role and no error, the arguments are the path's team id,
the resolved user's id and the body's role, and the calls are exactly the
lookup, the role query and that one `TeamAddUser`, in this order.
(3) Conversely that sequence of calls is made whenever the lookup and the role
query so succeed.
(4) If `email` or `role` is not a string the handler panics before any
database call. -/
theorem team_add_user_order_of_checks {σ : Type} (lower : Char → Char)
    (a : api σ) (s : σ) (r : Request) :
    (∀ email role e s1, r.keyVal "email" = Value.string email →
        r.keyVal "role" = Value.string role →
        a.db.GetUserByEmail s (ToLower lower email) = (Except.error e, s1) →
        (handleOrganizationTeamAddUser lower a s r).responses =
            [Response.Failure StatusInternalServerError
              (Errorf ErrorCode.ENOTFOUND "USER_NOT_FOUND")]
          ∧ (handleOrganizationTeamAddUser lower a s r).calls =
            [DBCall.GetUserByEmail (ToLower lower email)])
      ∧ (∀ t uid ro,
          DBCall.TeamAddUser t uid ro ∈ (handleOrganizationTeamAddUser lower a s r).calls →
          ∃ email role u s1 orgRole s2,
            r.keyVal "email" = Value.string email
              ∧ r.keyVal "role" = Value.string role
              ∧ a.db.GetUserByEmail s (ToLower lower email) = (Except.ok u, s1)
              ∧ a.db.OrganizationUserRole s1 u.Id (r.vars "orgId") = ((orgRole, none), s2)
              ∧ orgRole ≠ ""
              ∧ t = r.vars "teamId" ∧ uid = u.Id ∧ ro = role
              ∧ (handleOrganizationTeamAddUser lower a s r).calls =
                [DBCall.GetUserByEmail (ToLower lower email),
                  DBCall.OrganizationUserRole u.Id (r.vars "orgId"),
                  DBCall.TeamAddUser (r.vars "teamId") u.Id role])
      ∧ (∀ email role u s1 orgRole s2, r.keyVal "email" = Value.string email →
          r.keyVal "role" = Value.string role →
          a.db.GetUserByEmail s (ToLower lower email) = (Except.ok u, s1) →
          a.db.OrganizationUserRole s1 u.Id (r.vars "orgId") = ((orgRole, none), s2) →
          orgRole ≠ "" →
          (handleOrganizationTeamAddUser lower a s r).calls =
            [DBCall.GetUserByEmail (ToLower lower email),
              DBCall.OrganizationUserRole u.Id (r.vars "orgId"),
              DBCall.TeamAddUser (r.vars "teamId") u.Id role])
      ∧ ((r.keyVal "email").assertString = none ∨ (r.keyVal "role").assertString = none →
          handleOrganizationTeamAddUser lower a s r = Run.panic s []) := by
  have hCalls : ∀ email role u s1 orgRole s2, r.keyVal "email" = Value.string email →
      r.keyVal "role" = Value.string role →
      a.db.GetUserByEmail s (ToLower lower email) = (Except.ok u, s1) →
      a.db.OrganizationUserRole s1 u.Id (r.vars "orgId") = ((orgRole, none), s2) →
      orgRole ≠ "" →
      (handleOrganizationTeamAddUser lower a s r).calls =
        [DBCall.GetUserByEmail (ToLower lower email),
          DBCall.OrganizationUserRole u.Id (r.vars "orgId"),
          DBCall.TeamAddUser (r.vars "teamId") u.Id role] := by
    intro email role u s1 orgRole s2 hEmail hRole hUser hOrg hMember
    rcases hAdd : a.db.TeamAddUser s2 (r.vars "teamId") u.Id role with ⟨err | v, s3⟩
    · rw [teamAdd_write_error lower a s r email role u s1 s2 s3 orgRole err hEmail hRole hUser
        hOrg hMember hAdd]
    · rw [teamAdd_write_ok lower a s r email role u s1 s2 s3 orgRole v hEmail hRole hUser
        hOrg hMember hAdd]
  refine ⟨?_, ?_, hCalls, teamAdd_panic lower a s r⟩
  · intro email role e s1 hEmail hRole hUser
    rw [teamAdd_lookup_error lower a s r email role e s1 hEmail hRole hUser]
    exact ⟨rfl, rfl⟩
  · intro t uid ro hMem
    rcases hE : (r.keyVal "email").assertString with _ | email
    · rw [teamAdd_panic lower a s r (Or.inl hE)] at hMem
      simp [Run.panic] at hMem
    rcases hR : (r.keyVal "role").assertString with _ | role
    · rw [teamAdd_panic lower a s r (Or.inr hR)] at hMem
      simp [Run.panic] at hMem
    have hEmail := Value.assertString_eq_some _ _ hE
    have hRole := Value.assertString_eq_some _ _ hR
    rcases hUser : a.db.GetUserByEmail s (ToLower lower email) with ⟨e | u, s1⟩
    · rw [teamAdd_lookup_error lower a s r email role e s1 hEmail hRole hUser] at hMem
      simp at hMem
    · rcases hOrg : a.db.OrganizationUserRole s1 u.Id (r.vars "orgId") with
        ⟨⟨orgRole, roleErr⟩, s2⟩
      by_cases hDenied : orgRole = "" ∨ roleErr ≠ none
      · rw [teamAdd_denied lower a s r email role u s1 s2 orgRole roleErr hEmail hRole hUser
          hOrg hDenied] at hMem
        simp at hMem
      · have hMember : orgRole ≠ "" := fun h => hDenied (Or.inl h)
        have hNone : roleErr = none := by
          by_contra h
          exact hDenied (Or.inr h)
        subst hNone
        have hc := hCalls email role u s1 orgRole s2 hEmail hRole hUser hOrg hMember
        rw [hc] at hMem
        simp at hMem
        obtain ⟨ht, hu, hr⟩ := hMem
        exact ⟨email, role, u, s1, orgRole, s2, hEmail, hRole, hUser, hOrg, hMember, ht, hu, hr, hc⟩

/-- Witness for C9 on the sample ledger: `u2` is a member of `acme`. -/
theorem team_add_user_order_of_checks_witness :
    (teamAddRequest "acme" "eng" "U2@x.com" "ADMIN").keyVal "email" = Value.string "U2@x.com"
      ∧ (teamAddRequest "acme" "eng" "U2@x.com" "ADMIN").keyVal "role" = Value.string "ADMIN"
      ∧ (handleOrganizationTeamAddUser Char.toLower ledgerApi sampleLedger
          (teamAddRequest "acme" "eng" "U2@x.com" "ADMIN")).calls =
        [DBCall.GetUserByEmail "u2@x.com", DBCall.OrganizationUserRole "u2" "acme",
          DBCall.TeamAddUser "eng" "u2" "ADMIN"] :=
  ⟨rfl, rfl,
    (team_add_user_order_of_checks Char.toLower ledgerApi sampleLedger
      (teamAddRequest "acme" "eng" "U2@x.com" "ADMIN")).2.2.1 "U2@x.com" "ADMIN"
      ⟨"u2", "u2@x.com"⟩ sampleLedger "MEMBER" sampleLedger rfl rfl rfl rfl (by decide)⟩

/-! ## Adding a user to an organization -/

/-- C2: in `handleOrganizationAddUser`, for every request.
(1) If the body carries `email` and `role` as strings and `db.GetUserByEmail`
fails for the lower-cased email, the single response is
`Failure(500, Errorf(ENOTFOUND, "USER_NOT_FOUND"))` and the lookup is the only
database call, so `db.OrganizationAddUser` is not called; if the lookup
succeeds, the database calls are exactly the lookup followed by one
`OrganizationAddUser(orgId, user.Id, role)`.
(2) If `db.OrganizationAddUser` is called at all, then the lookup of the
lower-cased body email returned a user and the call is that single one, with
the path's organization id, the resolved user's id and the body's role
unchanged.
(3) If `email` or `role` is not a string the handler panics before any
database call. -/
theorem org_add_user_lookup_then_write {σ : Type} (lower : Char → Char)
    (a : api σ) (s : σ) (r : Request) :
    (∀ email role, r.keyVal "email" = Value.string email →
        r.keyVal "role" = Value.string role →
        (∀ e s1, a.db.GetUserByEmail s (ToLower lower email) = (Except.error e, s1) →
          (handleOrganizationAddUser lower a s r).responses =
              [Response.Failure StatusInternalServerError
                (Errorf ErrorCode.ENOTFOUND "USER_NOT_FOUND")]
            ∧ (handleOrganizationAddUser lower a s r).calls =
              [DBCall.GetUserByEmail (ToLower lower email)])
        ∧ (∀ u s1, a.db.GetUserByEmail s (ToLower lower email) = (Except.ok u, s1) →
          (handleOrganizationAddUser lower a s r).calls =
            [DBCall.GetUserByEmail (ToLower lower email),
              DBCall.OrganizationAddUser (r.vars "orgId") u.Id role]))
      ∧ (∀ o uid ro,
          DBCall.OrganizationAddUser o uid ro ∈ (handleOrganizationAddUser lower a s r).calls →
          ∃ email role u s1,
            r.keyVal "email" = Value.string email
              ∧ r.keyVal "role" = Value.string role
              ∧ a.db.GetUserByEmail s (ToLower lower email) = (Except.ok u, s1)
              ∧ o = r.vars "orgId" ∧ uid = u.Id ∧ ro = role
              ∧ (handleOrganizationAddUser lower a s r).calls =
                [DBCall.GetUserByEmail (ToLower lower email),
                  DBCall.OrganizationAddUser (r.vars "orgId") u.Id role])
      ∧ ((r.keyVal "email").assertString = none ∨ (r.keyVal "role").assertString = none →
          handleOrganizationAddUser lower a s r = Run.panic s []) := by
  refine ⟨fun email role hEmail hRole => ⟨?_, ?_⟩, ?_, orgAdd_panic lower a s r⟩
  · intro e s1 hUser
    rw [orgAdd_lookup_error lower a s r email role e s1 hEmail hRole hUser]
    exact ⟨rfl, rfl⟩
  · intro u s1 hUser
    exact org_add_calls lower a s r email role u s1 hEmail hRole hUser
  · intro o uid ro hMem
    rcases hE : (r.keyVal "email").assertString with _ | email
    · rw [orgAdd_panic lower a s r (Or.inl hE)] at hMem
      simp [Run.panic] at hMem
    rcases hR : (r.keyVal "role").assertString with _ | role
    · rw [orgAdd_panic lower a s r (Or.inr hR)] at hMem
      simp [Run.panic] at hMem
    have hEmail := Value.assertString_eq_some _ _ hE
    have hRole := Value.assertString_eq_some _ _ hR
    rcases hUser : a.db.GetUserByEmail s (ToLower lower email) with ⟨e | u, s1⟩
    · rw [orgAdd_lookup_error lower a s r email role e s1 hEmail hRole hUser] at hMem
      simp at hMem
    · have hc := org_add_calls lower a s r email role u s1 hEmail hRole hUser
      rw [hc] at hMem
      simp at hMem
      obtain ⟨ho, hu, hr⟩ := hMem
      exact ⟨email, role, u, s1, hEmail, hRole, hUser, ho, hu, hr, hc⟩

/-- Witness for C2 on the sample ledger: `u3` is added to `acme`. -/
theorem org_add_user_lookup_then_write_witness :
    (orgAddRequest "acme" "U3@X.com" "MEMBER").keyVal "email" = Value.string "U3@X.com"
      ∧ (orgAddRequest "acme" "U3@X.com" "MEMBER").keyVal "role" = Value.string "MEMBER"
      ∧ (handleOrganizationAddUser Char.toLower ledgerApi sampleLedger
          (orgAddRequest "acme" "U3@X.com" "MEMBER")).calls =
        [DBCall.GetUserByEmail "u3@x.com", DBCall.OrganizationAddUser "acme" "u3" "MEMBER"] :=
  ⟨rfl, rfl,
    ((org_add_user_lookup_then_write Char.toLower ledgerApi sampleLedger
      (orgAddRequest "acme" "U3@X.com" "MEMBER")).1 "U3@X.com" "MEMBER" rfl rfl).2
      ⟨"u3", "u3@x.com"⟩ sampleLedger rfl⟩

theorem Ledger.GetUserByEmail_state (s : Ledger) (e : String) :
    (s.GetUserByEmail e).2 = s := by
  unfold Ledger.GetUserByEmail
  split <;> rfl

theorem Ledger.OrganizationUserRole_state (s : Ledger) (u o : String) :
    (s.OrganizationUserRole u o).2 = s := by
  unfold Ledger.OrganizationUserRole
  split <;> rfl

theorem Ledger.validRole_eq_false (role : String) (h1 : role ≠ "MEMBER") (h2 : role ≠ "ADMIN") :
    Ledger.validRole role = false := by
  simp [Ledger.validRole, h1, h2]

/-- C6 as stated fails: a request with the unrecognized role `OWNER` for an
email that resolves to no user is answered with
`Errorf(ENOTFOUND, "USER_NOT_FOUND")`, which is not a validation error. -/
theorem org_add_user_unrecognized_role_counterexample :
    Ledger.validRole "OWNER" = false
      ∧ (handleOrganizationAddUser Char.toLower ledgerApi sampleLedger
          (orgAddRequest "acme" "nobody@x.com" "OWNER")).responses =
        [Response.Failure StatusInternalServerError
          (Errorf ErrorCode.ENOTFOUND "USER_NOT_FOUND")]
      ∧ ¬ (∃ status message,
          (handleOrganizationAddUser Char.toLower ledgerApi sampleLedger
            (orgAddRequest "acme" "nobody@x.com" "OWNER")).responses =
          [Response.Failure status (Errorf ErrorCode.EINVALID message)]) := by
  refine ⟨by decide, by decide, ?_⟩
  rintro ⟨status, message, h⟩
  have h2 : (handleOrganizationAddUser Char.toLower ledgerApi sampleLedger
      (orgAddRequest "acme" "nobody@x.com" "OWNER")).responses =
        [Response.Failure StatusInternalServerError
          (Errorf ErrorCode.ENOTFOUND "USER_NOT_FOUND")] := by decide
  rw [h2] at h
  simp [Errorf] at h

/-- C6, amended: `handleOrganizationAddUser` does not validate the role itself.
For a request whose body carries `email` and `role` as strings and whose role
is neither `MEMBER` nor `ADMIN`:
(1) over any database, if the user lookup fails the single response is
`Failure(500, Errorf(ENOTFOUND, "USER_NOT_FOUND"))` and the lookup is the only
database call; if the lookup succeeds the role is passed unchanged to
`db.OrganizationAddUser`, and the single response is `Failure(500, err)` for
the error `err` that call returns, or `Success` if it returns none;
(2) over the database modelled from the specification, when the email resolves
to a user the single response is a `Failure` carrying an `EINVALID` error and
the ledger is unchanged, and when it does not resolve the ledger is unchanged
as well. -/
theorem org_add_user_unrecognized_role (lower : Char → Char)
    (r : Request) (email role : String)
    (hEmail : r.keyVal "email" = Value.string email)
    (hRole : r.keyVal "role" = Value.string role)
    (hMember : role ≠ "MEMBER") (hAdmin : role ≠ "ADMIN") :
    (∀ (σ : Type) (a : api σ) (s : σ),
        (∀ e s1, a.db.GetUserByEmail s (ToLower lower email) = (Except.error e, s1) →
          handleOrganizationAddUser lower a s r =
            ⟨s1, [DBCall.GetUserByEmail (ToLower lower email)],
              [Response.Failure StatusInternalServerError
                (Errorf ErrorCode.ENOTFOUND "USER_NOT_FOUND")], false⟩)
        ∧ (∀ u s1 err s2, a.db.GetUserByEmail s (ToLower lower email) = (Except.ok u, s1) →
          a.db.OrganizationAddUser s1 (r.vars "orgId") u.Id role = (Except.error err, s2) →
          handleOrganizationAddUser lower a s r =
            ⟨s2, [DBCall.GetUserByEmail (ToLower lower email),
                DBCall.OrganizationAddUser (r.vars "orgId") u.Id role],
              [Response.Failure StatusInternalServerError err], false⟩)
        ∧ (∀ u s1 v s2, a.db.GetUserByEmail s (ToLower lower email) = (Except.ok u, s1) →
          a.db.OrganizationAddUser s1 (r.vars "orgId") u.Id role = (Except.ok v, s2) →
          handleOrganizationAddUser lower a s r =
            ⟨s2, [DBCall.GetUserByEmail (ToLower lower email),
                DBCall.OrganizationAddUser (r.vars "orgId") u.Id role],
              [Response.Success StatusOK Payload.null], false⟩))
      ∧ (∀ (s : Ledger),
        (∀ u, (s.GetUserByEmail (ToLower lower email)).1 = Except.ok u →
          (handleOrganizationAddUser lower ledgerApi s r).responses =
              [Response.Failure StatusInternalServerError
                (Errorf ErrorCode.EINVALID "invalid role")]
            ∧ (handleOrganizationAddUser lower ledgerApi s r).state = s)
        ∧ (∀ e, (s.GetUserByEmail (ToLower lower email)).1 = Except.error e →
          (handleOrganizationAddUser lower ledgerApi s r).responses =
              [Response.Failure StatusInternalServerError
                (Errorf ErrorCode.ENOTFOUND "USER_NOT_FOUND")]
            ∧ (handleOrganizationAddUser lower ledgerApi s r).state = s)) := by
  refine ⟨fun σ a s => ⟨?_, ?_, ?_⟩, fun s => ⟨?_, ?_⟩⟩
  · intro e s1 hUser
    exact orgAdd_lookup_error lower a s r email role e s1 hEmail hRole hUser
  · intro u s1 err s2 hUser hAdd
    exact orgAdd_write_error lower a s r email role u s1 s2 err hEmail hRole hUser hAdd
  · intro u s1 v s2 hUser hAdd
    exact orgAdd_write_ok lower a s r email role u s1 s2 v hEmail hRole hUser hAdd
  · intro u hU
    have hUser : ledgerApi.db.GetUserByEmail s (ToLower lower email) = (Except.ok u, s) :=
      Prod.ext hU (Ledger.GetUserByEmail_state s _)
    have hAdd : ledgerApi.db.OrganizationAddUser s (r.vars "orgId") u.Id role =
        (Except.error (Errorf ErrorCode.EINVALID "invalid role"), s) := by
      show Ledger.OrganizationAddUser s (r.vars "orgId") u.Id role = _
      simp [Ledger.OrganizationAddUser, Ledger.validRole_eq_false role hMember hAdmin]
    rw [orgAdd_write_error lower ledgerApi s r email role u s s _ hEmail hRole hUser hAdd]
    exact ⟨rfl, rfl⟩
  · intro e hE
    have hUser : ledgerApi.db.GetUserByEmail s (ToLower lower email) = (Except.error e, s) :=
      Prod.ext hE (Ledger.GetUserByEmail_state s _)
    rw [orgAdd_lookup_error lower ledgerApi s r email role e s hEmail hRole hUser]
    exact ⟨rfl, rfl⟩

/-- Witness for amended C6 on the sample ledger: role `OWNER` for `u3`. -/
theorem org_add_user_unrecognized_role_witness :
    (orgAddRequest "acme" "u3@x.com" "OWNER").keyVal "role" = Value.string "OWNER"
      ∧ (handleOrganizationAddUser Char.toLower ledgerApi sampleLedger
          (orgAddRequest "acme" "u3@x.com" "OWNER")).responses =
        [Response.Failure StatusInternalServerError (Errorf ErrorCode.EINVALID "invalid role")]
      ∧ (handleOrganizationAddUser Char.toLower ledgerApi sampleLedger
          (orgAddRequest "acme" "u3@x.com" "OWNER")).state = sampleLedger :=
  ⟨rfl,
    ((org_add_user_unrecognized_role Char.toLower
      (orgAddRequest "acme" "u3@x.com" "OWNER") "u3@x.com" "OWNER" rfl rfl
      (by decide) (by decide)).2 sampleLedger).1 ⟨"u3", "u3@x.com"⟩ rfl⟩

/-! ## Teams outside the organization -/

theorem Ledger.teamRole_TeamAddUser (s : Ledger) (team user role : String)
    (hRole : Ledger.validRole role = true)
    (hTeam : s.teams.any (fun t => decide (t.Team.Id = team)) = true) :
    s.TeamAddUser team user role =
        (Except.ok team,
          { s with
            teamUsers :=
              s.teamUsers.filter (fun m => !(decide (m.TeamId = team ∧ m.UserId = user)))
                ++ [⟨team, user, role⟩] })
      ∧ (s.TeamAddUser team user role).2.teamRole user team = some role := by
  have h : s.TeamAddUser team user role =
      (Except.ok team,
        { s with
          teamUsers :=
            s.teamUsers.filter (fun m => !(decide (m.TeamId = team ∧ m.UserId = user)))
              ++ [⟨team, user, role⟩] }) := by
    simp only [Ledger.TeamAddUser, hRole, hTeam]
    simp
  refine ⟨h, ?_⟩
  rw [h]
  simp only [Ledger.teamRole, List.find?_append]
  have hNone : List.find? (fun m : TeamMembership => decide (m.TeamId = team ∧ m.UserId = user))
      (s.teamUsers.filter (fun m => !(decide (m.TeamId = team ∧ m.UserId = user)))) = none := by
    rw [List.find?_eq_none]
    intro x hx
    have hx2 := (List.mem_filter.mp hx).2
    simp only [Bool.not_eq_true', decide_eq_false_iff_not] at hx2
    simpa using hx2
  rw [hNone]
  simp

theorem Ledger.TeamAddUser_absent (s : Ledger) (team user role : String)
    (hRole : Ledger.validRole role = true)
    (hTeam : s.teams.any (fun t => decide (t.Team.Id = team)) = false) :
    s.TeamAddUser team user role =
      (Except.error (Errorf ErrorCode.ENOTFOUND "team not found"), s) := by
  simp only [Ledger.TeamAddUser, hRole, hTeam]
  simp

/-- C5 as stated fails: on the sample ledger, team `ops` belongs to `globex`
and not to `acme`, and user `u2` is a member of both organizations; the request
to add `u2` to team `ops` through organization `acme` is answered with
`Success` and the team membership is written. -/
theorem team_add_user_foreign_team_counterexample :
    sampleLedger.teamBelongs "ops" "acme" = false
      ∧ sampleLedger.teamBelongs "ops" "globex" = true
      ∧ sampleLedger.organizationRole "u2" "acme" = some "MEMBER"
      ∧ sampleLedger.organizationRole "u2" "globex" = some "MEMBER"
      ∧ sampleLedger.teamRole "u2" "ops" = none
      ∧ (handleOrganizationTeamAddUser Char.toLower ledgerApi sampleLedger
          (teamAddRequest "acme" "ops" "u2@x.com" "MEMBER")).responses =
        [Response.Success StatusOK Payload.null]
      ∧ (handleOrganizationTeamAddUser Char.toLower ledgerApi sampleLedger
          (teamAddRequest "acme" "ops" "u2@x.com" "MEMBER")).state.teamRole "u2" "ops" =
        some "MEMBER" := by
  decide

/-- C5, amended: `handleOrganizationTeamAddUser` never compares the team with
the organization.  For a request whose body carries `email` and `role` as
strings:
(1) over any database, once the lookup returned a user and
`db.OrganizationUserRole(user, orgId)` a non-empty role without error, the
handler calls `db.TeamAddUser(teamId, user.Id, role)`, a method that is not
given the organization id, and the single response is `Failure(500, err)` for
the error that call returns, or `Success` if it returns none;
(2) over the database modelled from the specification, for a user who is a
member of the organization named in the path and a recognized role: if the
team exists, in whichever organization, the response is `Success` and the user
holds the role in the team afterwards; if the team does not exist the response
is a `Failure` carrying an `ENOTFOUND` error and the ledger is unchanged. -/
theorem team_add_user_foreign_team (lower : Char → Char)
    (r : Request) (email role : String)
    (hEmail : r.keyVal "email" = Value.string email)
    (hRole : r.keyVal "role" = Value.string role) :
    (∀ (σ : Type) (a : api σ) (s : σ) (u : User) (s1 s2 : σ) (orgRole : String),
        a.db.GetUserByEmail s (ToLower lower email) = (Except.ok u, s1) →
        a.db.OrganizationUserRole s1 u.Id (r.vars "orgId") = ((orgRole, none), s2) →
        orgRole ≠ "" →
        (∀ err s3, a.db.TeamAddUser s2 (r.vars "teamId") u.Id role = (Except.error err, s3) →
          handleOrganizationTeamAddUser lower a s r =
            ⟨s3, [DBCall.GetUserByEmail (ToLower lower email),
                DBCall.OrganizationUserRole u.Id (r.vars "orgId"),
                DBCall.TeamAddUser (r.vars "teamId") u.Id role],
              [Response.Failure StatusInternalServerError err], false⟩)
        ∧ (∀ v s3, a.db.TeamAddUser s2 (r.vars "teamId") u.Id role = (Except.ok v, s3) →
          handleOrganizationTeamAddUser lower a s r =
            ⟨s3, [DBCall.GetUserByEmail (ToLower lower email),
                DBCall.OrganizationUserRole u.Id (r.vars "orgId"),
                DBCall.TeamAddUser (r.vars "teamId") u.Id role],
              [Response.Success StatusOK Payload.null], false⟩))
      ∧ (∀ (s : Ledger) (u : User) (orgRole : String),
        (s.GetUserByEmail (ToLower lower email)).1 = Except.ok u →
        s.organizationRole u.Id (r.vars "orgId") = some orgRole →
        orgRole ≠ "" →
        Ledger.validRole role = true →
        (s.teams.any (fun t => decide (t.Team.Id = r.vars "teamId")) = true →
          (handleOrganizationTeamAddUser lower ledgerApi s r).responses =
              [Response.Success StatusOK Payload.null]
            ∧ (handleOrganizationTeamAddUser lower ledgerApi s r).state.teamRole u.Id
                (r.vars "teamId") = some role)
        ∧ (s.teams.any (fun t => decide (t.Team.Id = r.vars "teamId")) = false →
          (handleOrganizationTeamAddUser lower ledgerApi s r).responses =
              [Response.Failure StatusInternalServerError
                (Errorf ErrorCode.ENOTFOUND "team not found")]
            ∧ (handleOrganizationTeamAddUser lower ledgerApi s r).state = s)) := by
  refine ⟨?_, ?_⟩
  · intro σ a s u s1 s2 orgRole hUser hOrg hMember
    exact ⟨fun err s3 hAdd =>
        teamAdd_write_error lower a s r email role u s1 s2 s3 orgRole err hEmail hRole hUser
          hOrg hMember hAdd,
      fun v s3 hAdd =>
        teamAdd_write_ok lower a s r email role u s1 s2 s3 orgRole v hEmail hRole hUser
          hOrg hMember hAdd⟩
  · intro s u orgRole hU hO hMember hValid
    have hUser : ledgerApi.db.GetUserByEmail s (ToLower lower email) = (Except.ok u, s) :=
      Prod.ext hU (Ledger.GetUserByEmail_state s _)
    have hOrg : ledgerApi.db.OrganizationUserRole s u.Id (r.vars "orgId") =
        ((orgRole, none), s) := by
      show Ledger.OrganizationUserRole s u.Id (r.vars "orgId") = _
      simp only [Ledger.OrganizationUserRole, hO]
    constructor
    · intro hTeam
      have hAdd := Ledger.teamRole_TeamAddUser s (r.vars "teamId") u.Id role hValid hTeam
      have hRun := teamAdd_write_ok lower ledgerApi s r email role u s s _ orgRole
        (r.vars "teamId") hEmail hRole hUser hOrg hMember hAdd.1
      rw [hRun]
      refine ⟨rfl, ?_⟩
      have h2 := hAdd.2
      rw [hAdd.1] at h2
      exact h2
    · intro hTeam
      have hAdd := Ledger.TeamAddUser_absent s (r.vars "teamId") u.Id role hValid hTeam
      have hRun := teamAdd_write_error lower ledgerApi s r email role u s s s orgRole _
        hEmail hRole hUser hOrg hMember hAdd
      rw [hRun]
      exact ⟨rfl, rfl⟩

/-- Witness for amended C5 on the sample ledger: `u2`, a member of `acme`, is
added to team `ops` of `globex` through the path of `acme`. -/
theorem team_add_user_foreign_team_witness :
    (teamAddRequest "acme" "ops" "u2@x.com" "ADMIN").keyVal "email" = Value.string "u2@x.com"
      ∧ sampleLedger.teamBelongs "ops" "acme" = false
      ∧ (handleOrganizationTeamAddUser Char.toLower ledgerApi sampleLedger
          (teamAddRequest "acme" "ops" "u2@x.com" "ADMIN")).responses =
        [Response.Success StatusOK Payload.null]
      ∧ (handleOrganizationTeamAddUser Char.toLower ledgerApi sampleLedger
          (teamAddRequest "acme" "ops" "u2@x.com" "ADMIN")).state.teamRole "u2" "ops" =
        some "ADMIN" :=
  have h := ((team_add_user_foreign_team Char.toLower
      (teamAddRequest "acme" "ops" "u2@x.com" "ADMIN") "u2@x.com" "ADMIN" rfl rfl).2
      sampleLedger ⟨"u2", "u2@x.com"⟩ "MEMBER" rfl (by decide) (by decide) (by decide)).1
      (by decide)
  ⟨rfl, by decide, h.1, h.2⟩

/-! ## Removing a user from an organization -/

/-- C8: `handleOrganizationRemoveUser` makes no membership check of its own:
for every request its only database call is one
`OrganizationRemoveUser(orgId, userId)` with the two path values; it writes
exactly one response, which is `Success` if and only if that call returns no
error and is `Failure(500, err)` when the call returns the error `err`; the
database is left in the state that call returned. -/
theorem org_remove_user_single_call {σ : Type} (a : api σ) (s : σ) (r : Request) :
    (handleOrganizationRemoveUser a s r).calls =
        [DBCall.OrganizationRemoveUser (r.vars "orgId") (r.vars "userId")]
      ∧ ((handleOrganizationRemoveUser a s r).responses =
            [Response.Success StatusOK Payload.null]
          ↔ (a.db.OrganizationRemoveUser s (r.vars "orgId") (r.vars "userId")).1 = none)
      ∧ (∀ err, (a.db.OrganizationRemoveUser s (r.vars "orgId") (r.vars "userId")).1 = some err →
          (handleOrganizationRemoveUser a s r).responses =
            [Response.Failure StatusInternalServerError err])
      ∧ (handleOrganizationRemoveUser a s r).responses.length = 1
      ∧ (handleOrganizationRemoveUser a s r).state =
          (a.db.OrganizationRemoveUser s (r.vars "orgId") (r.vars "userId")).2
      ∧ (handleOrganizationRemoveUser a s r).panicked = false := by
  rcases h : a.db.OrganizationRemoveUser s (r.vars "orgId") (r.vars "userId") with ⟨err | _, s1⟩
  · simp [handleOrganizationRemoveUser, h]
  · simp [handleOrganizationRemoveUser, h]

/-- Witness for C8 on the sample ledger: removing `u3`, who is not a member of
`acme`, is one `OrganizationRemoveUser("acme", "u3")` answered with `Success`. -/
theorem org_remove_user_single_call_witness :
    sampleLedger.organizationRole "u3" "acme" = none
      ∧ (handleOrganizationRemoveUser ledgerApi sampleLedger
          (orgRemoveRequest "acme" "u3")).calls = [DBCall.OrganizationRemoveUser "acme" "u3"]
      ∧ (handleOrganizationRemoveUser ledgerApi sampleLedger
          (orgRemoveRequest "acme" "u3")).responses = [Response.Success StatusOK Payload.null] :=
  have h := org_remove_user_single_call ledgerApi sampleLedger (orgRemoveRequest "acme" "u3")
  ⟨by decide, h.1, h.2.1.mpr rfl⟩

theorem Ledger.organizationRole_OrganizationRemoveUser (s : Ledger) (org user : String) :
    (s.OrganizationRemoveUser org user).2.organizationRole user org = none := by
  simp only [Ledger.OrganizationRemoveUser, Ledger.organizationRole, Option.map_eq_none']
  rw [List.find?_eq_none]
  intro x hx
  have hx2 := (List.mem_filter.mp hx).2
  simp only [Bool.not_eq_true', decide_eq_false_iff_not] at hx2
  simpa using hx2

theorem Ledger.teamBelongs_OrganizationRemoveUser (s : Ledger) (org user team org2 : String) :
    (s.OrganizationRemoveUser org user).2.teamBelongs team org2 = s.teamBelongs team org2 := by
  simp [Ledger.OrganizationRemoveUser, Ledger.teamBelongs]

theorem Ledger.teamRole_OrganizationRemoveUser (s : Ledger) (org user team : String)
    (hOwned : s.teamBelongs team org = true) :
    (s.OrganizationRemoveUser org user).2.teamRole user team = none := by
  simp only [Ledger.OrganizationRemoveUser, Ledger.teamRole, Option.map_eq_none']
  rw [List.find?_eq_none]
  intro x hx
  have hx2 := (List.mem_filter.mp hx).2
  intro hp
  simp only [decide_eq_true_eq] at hp
  rw [hp.1, hp.2, hOwned] at hx2
  simp at hx2

/-- C4 (over the database modelled from the specification): for every
organization `O`, user `U` (the two path values) and every team `T` owned by
`O`, `handleOrganizationRemoveUser` responds with `Success`, and in the ledger
it leaves `organizationRole(U, O) = None` and `teamRole(U, T) = None`, while
`T` is still owned by `O`. -/
theorem org_remove_user_cascade (s : Ledger) (r : Request) :
    (handleOrganizationRemoveUser ledgerApi s r).responses =
        [Response.Success StatusOK Payload.null]
      ∧ (handleOrganizationRemoveUser ledgerApi s r).state.organizationRole
          (r.vars "userId") (r.vars "orgId") = none
      ∧ (∀ T, s.teamBelongs T (r.vars "orgId") = true →
          (handleOrganizationRemoveUser ledgerApi s r).state.teamRole (r.vars "userId") T = none
            ∧ (handleOrganizationRemoveUser ledgerApi s r).state.teamBelongs T (r.vars "orgId")
                = true) := by
  have hRun : handleOrganizationRemoveUser ledgerApi s r =
      ⟨(s.OrganizationRemoveUser (r.vars "orgId") (r.vars "userId")).2,
        [DBCall.OrganizationRemoveUser (r.vars "orgId") (r.vars "userId")],
        [Response.Success StatusOK Payload.null], false⟩ := rfl
  rw [hRun]
  refine ⟨rfl, Ledger.organizationRole_OrganizationRemoveUser s _ _, ?_⟩
  intro T hOwned
  refine ⟨Ledger.teamRole_OrganizationRemoveUser s _ _ T hOwned, ?_⟩
  show (s.OrganizationRemoveUser (r.vars "orgId") (r.vars "userId")).2.teamBelongs T
      (r.vars "orgId") = true
  rw [Ledger.teamBelongs_OrganizationRemoveUser]
  exact hOwned

/-- Witness for C4 on the sample ledger: `u2`, a member of `acme` and of its
team `eng`, is removed from `acme`. -/
theorem org_remove_user_cascade_witness :
    sampleLedger.teamBelongs "eng" "acme" = true
      ∧ sampleLedger.organizationRole "u2" "acme" = some "MEMBER"
      ∧ sampleLedger.teamRole "u2" "eng" = some "MEMBER"
      ∧ (handleOrganizationRemoveUser ledgerApi sampleLedger
          (orgRemoveRequest "acme" "u2")).state.organizationRole "u2" "acme" = none
      ∧ (handleOrganizationRemoveUser ledgerApi sampleLedger
          (orgRemoveRequest "acme" "u2")).state.teamRole "u2" "eng" = none :=
  have h := org_remove_user_cascade sampleLedger (orgRemoveRequest "acme" "u2")
  ⟨by decide, by decide, by decide, h.2.1, (h.2.2 "eng" (by decide)).1⟩

/-! ## Reading an organization or a team with the caller's roles -/

/-- C7: for every request.
`handleGetOrganizationTeamByUser`, when the context holds the strings `orgRole`
under `contextKeyOrgRole` and `teamRole` under `contextKeyTeamRole`: if
`db.OrganizationGet` and `db.TeamGet` both succeed, the single response is
`Success` carrying exactly the organization and the team the database
returned together with `orgRole` and `teamRole` as held in the context; if
`db.OrganizationGet` fails with `err`, the single response is
`Failure(500, err)` and `OrganizationGet` is the only database call, so
`db.TeamGet` is not called.
`handleGetOrganizationByUser`, when the context holds the string `orgRole`: if
`db.OrganizationGet` succeeds, the single response is `Success` carrying the
organization returned and `orgRole`; if it fails with `err`, the single
response is `Failure(500, err)`.
When a role key the handler reads does not hold a string, the handler panics
before any database call and writes no response, so no role is made up. -/
theorem get_organization_team_reports_context_roles {σ : Type} (a : api σ) (s : σ)
    (r : Request) :
    (∀ orgRole teamRole,
        r.context ContextKey.contextKeyOrgRole = Value.string orgRole →
        r.context ContextKey.contextKeyTeamRole = Value.string teamRole →
        (∀ org s1 team s2,
          a.db.OrganizationGet s (r.vars "orgId") = (Except.ok org, s1) →
          a.db.TeamGet s1 (r.vars "teamId") = (Except.ok team, s2) →
          (handleGetOrganizationTeamByUser a s r).responses =
            [Response.Success StatusOK
              (Payload.orgTeamResponse ⟨org, team, orgRole, teamRole⟩)])
        ∧ (∀ err s1,
          a.db.OrganizationGet s (r.vars "orgId") = (Except.error err, s1) →
          (handleGetOrganizationTeamByUser a s r).responses =
              [Response.Failure StatusInternalServerError err]
            ∧ (handleGetOrganizationTeamByUser a s r).calls =
              [DBCall.OrganizationGet (r.vars "orgId")]
            ∧ (∀ t, DBCall.TeamGet t ∉ (handleGetOrganizationTeamByUser a s r).calls)))
      ∧ (∀ orgRole,
        r.context ContextKey.contextKeyOrgRole = Value.string orgRole →
        (∀ org s1,
          a.db.OrganizationGet s (r.vars "orgId") = (Except.ok org, s1) →
          (handleGetOrganizationByUser a s r).responses =
            [Response.Success StatusOK (Payload.organizationResponse ⟨org, orgRole⟩)])
        ∧ (∀ err s1,
          a.db.OrganizationGet s (r.vars "orgId") = (Except.error err, s1) →
          (handleGetOrganizationByUser a s r).responses =
            [Response.Failure StatusInternalServerError err]))
      ∧ ((r.context ContextKey.contextKeyOrgRole).assertString = none
            ∨ (r.context ContextKey.contextKeyTeamRole).assertString = none →
          handleGetOrganizationTeamByUser a s r = Run.panic s [])
      ∧ ((r.context ContextKey.contextKeyOrgRole).assertString = none →
          handleGetOrganizationByUser a s r = Run.panic s []) := by
  refine ⟨fun orgRole teamRole hOrgRole hTeamRole => ⟨?_, ?_⟩,
    fun orgRole hOrgRole => ⟨?_, ?_⟩, ?_, ?_⟩
  · intro org s1 team s2 hOrg hTeam
    simp only [handleGetOrganizationTeamByUser, hOrgRole, hTeamRole, Value.assertString, hOrg,
      hTeam]
  · intro err s1 hOrg
    simp [handleGetOrganizationTeamByUser, hOrgRole, hTeamRole, Value.assertString, hOrg]
  · intro org s1 hOrg
    simp only [handleGetOrganizationByUser, hOrgRole, Value.assertString, hOrg]
  · intro err s1 hOrg
    simp only [handleGetOrganizationByUser, hOrgRole, Value.assertString, hOrg]
  · intro h
    rcases h with h | h
    · simp only [handleGetOrganizationTeamByUser, h]
    · simp only [handleGetOrganizationTeamByUser, h]
      split <;> rfl
  · intro h
    simp only [handleGetOrganizationByUser, h]

/-- Witness for C7 on the sample ledger: the roles in the context are reported
as they are, here an empty team role. -/
theorem get_organization_team_reports_context_roles_witness :
    (orgTeamGetRequest "acme" "eng" "ADMIN" "").context ContextKey.contextKeyOrgRole
        = Value.string "ADMIN"
      ∧ (orgTeamGetRequest "acme" "eng" "ADMIN" "").context ContextKey.contextKeyTeamRole
        = Value.string ""
      ∧ (handleGetOrganizationTeamByUser ledgerApi sampleLedger
          (orgTeamGetRequest "acme" "eng" "ADMIN" "")).responses =
        [Response.Success StatusOK
          (Payload.orgTeamResponse ⟨⟨"acme", "Acme"⟩, ⟨"eng", "Eng"⟩, "ADMIN", ""⟩)] :=
  ⟨rfl, rfl,
    ((get_organization_team_reports_context_roles ledgerApi sampleLedger
      (orgTeamGetRequest "acme" "eng" "ADMIN" "")).1 "ADMIN" "" rfl rfl).1
      ⟨"acme", "Acme"⟩ sampleLedger ⟨"eng", "Eng"⟩ sampleLedger rfl rfl⟩

/-! ## Email normalization -/

theorem differOnlyInCase_map (lower : Char → Char) :
    ∀ l1 l2 : List Char, differOnlyInCase lower l1 l2 = true → l1.map lower = l2.map lower
  | [], [], _ => rfl
  | [], _ :: _, h => by simp [differOnlyInCase] at h
  | _ :: _, [], h => by simp [differOnlyInCase] at h
  | c1 :: t1, c2 :: t2, h => by
    simp only [differOnlyInCase, Bool.and_eq_true, decide_eq_true_eq] at h
    simp only [List.map_cons, h.1, differOnlyInCase_map lower t1 t2 h.2]

theorem differOnlyInCase_ToLower (lower : Char → Char) (e1 e2 : String)
    (h : differOnlyInCase lower e1.data e2.data = true) :
    ToLower lower e1 = ToLower lower e2 := by
  simp only [ToLower, differOnlyInCase_map lower e1.data e2.data h]

/-- C3: let two requests have the same path variables, context and paging and
bodies that agree on every key but `email`, where they hold strings `e1` and
`e2` that differ only in letter case.  Then `strings.ToLower` gives the same
lower-cased email for both; `handleOrganizationAddUser` and
`handleOrganizationTeamAddUser`, run against the same database state, produce
the same run for both requests (the same database calls with the same
arguments, the same responses, the same final state); and when the body holds
a string role the first database call of both handlers, for the second request
as for the first, is `GetUserByEmail` with the lower-cased `e1`. -/
theorem email_case_is_normalized {σ : Type} (lower : Char → Char) (a : api σ) (s : σ)
    (r : Request) (body2 : String → Value) (e1 e2 : String)
    (hEmail1 : r.keyVal "email" = Value.string e1)
    (hEmail2 : body2 "email" = Value.string e2)
    (hCase : differOnlyInCase lower e1.data e2.data = true)
    (hRest : ∀ k, k ≠ "email" → body2 k = r.keyVal k) :
    ToLower lower e1 = ToLower lower e2
      ∧ handleOrganizationAddUser lower a s ⟨r.vars, r.context, body2, r.Limit, r.Offset⟩
          = handleOrganizationAddUser lower a s r
      ∧ handleOrganizationTeamAddUser lower a s ⟨r.vars, r.context, body2, r.Limit, r.Offset⟩
          = handleOrganizationTeamAddUser lower a s r
      ∧ (∀ role, r.keyVal "role" = Value.string role →
          (handleOrganizationAddUser lower a s
              ⟨r.vars, r.context, body2, r.Limit, r.Offset⟩).calls.head?
            = some (DBCall.GetUserByEmail (ToLower lower e1))
          ∧ (handleOrganizationTeamAddUser lower a s
              ⟨r.vars, r.context, body2, r.Limit, r.Offset⟩).calls.head?
            = some (DBCall.GetUserByEmail (ToLower lower e1))) := by
  have hLow : ToLower lower e1 = ToLower lower e2 := differOnlyInCase_ToLower lower e1 e2 hCase
  have hRole2 : body2 "role" = r.keyVal "role" := hRest "role" (by decide)
  have hOrg : handleOrganizationAddUser lower a s ⟨r.vars, r.context, body2, r.Limit, r.Offset⟩
      = handleOrganizationAddUser lower a s r := by
    simp only [handleOrganizationAddUser, hEmail1, hEmail2, hRole2, Value.assertString, hLow]
  have hTeam : handleOrganizationTeamAddUser lower a s
      ⟨r.vars, r.context, body2, r.Limit, r.Offset⟩
      = handleOrganizationTeamAddUser lower a s r := by
    simp only [handleOrganizationTeamAddUser, hEmail1, hEmail2, hRole2, Value.assertString, hLow]
  refine ⟨hLow, hOrg, hTeam, ?_⟩
  intro role hRole
  rw [hOrg, hTeam]
  constructor
  · rcases hUser : a.db.GetUserByEmail s (ToLower lower e1) with ⟨e | u, s1⟩
    · rw [orgAdd_lookup_error lower a s r e1 role e s1 hEmail1 hRole hUser]
      rfl
    · rw [(org_add_calls lower a s r e1 role u s1 hEmail1 hRole hUser)]
      rfl
  · rcases hUser : a.db.GetUserByEmail s (ToLower lower e1) with ⟨e | u, s1⟩
    · rw [teamAdd_lookup_error lower a s r e1 role e s1 hEmail1 hRole hUser]
      rfl
    · obtain ⟨rest, hrest⟩ := team_add_calls_head lower a s r e1 role u s1 hEmail1 hRole hUser
      rw [hrest]
      rfl

/-- Witness for C3 on the sample ledger: `User@Example.com` and
`user@example.com` are looked up under the same lower-cased email. -/
theorem email_case_is_normalized_witness :
    differOnlyInCase Char.toLower "User@Example.com".data "user@example.com".data = true
      ∧ ToLower Char.toLower "User@Example.com" = "user@example.com"
      ∧ handleOrganizationAddUser Char.toLower ledgerApi sampleLedger
          ⟨(orgAddRequest "acme" "User@Example.com" "MEMBER").vars,
            (orgAddRequest "acme" "User@Example.com" "MEMBER").context,
            (orgAddRequest "acme" "user@example.com" "MEMBER").keyVal,
            (orgAddRequest "acme" "User@Example.com" "MEMBER").Limit,
            (orgAddRequest "acme" "User@Example.com" "MEMBER").Offset⟩
          = handleOrganizationAddUser Char.toLower ledgerApi sampleLedger
              (orgAddRequest "acme" "User@Example.com" "MEMBER")
      ∧ (handleOrganizationAddUser Char.toLower ledgerApi sampleLedger
          (orgAddRequest "acme" "User@Example.com" "MEMBER")).calls =
        [DBCall.GetUserByEmail "user@example.com",
          DBCall.OrganizationAddUser "acme" "u4" "MEMBER"] :=
  ⟨by decide, by decide,
    (email_case_is_normalized Char.toLower ledgerApi sampleLedger
      (orgAddRequest "acme" "User@Example.com" "MEMBER")
      (orgAddRequest "acme" "user@example.com" "MEMBER").keyVal
      "User@Example.com" "user@example.com" rfl rfl (by decide)
      (fun k hk => by
        simp [orgAddRequest, mkRequest, List.find?, Ne.symm hk])).2.1,
    by decide⟩

/-! ## One response per request -/

/-- C10: every handler of `organization.go`, serving a request in which the
values it asserts to be strings are strings (the body fields `name`, or `email`
and `role`, and the role keys of the request context), does not panic and
writes exactly one response: either one `Success`, with status 200, or one
`Failure`, with status 500, and never both; in particular every `Failure` it
writes has status 500. -/
theorem one_response_per_request {σ : Type} (lower : Char → Char) (a : api σ) (s : σ)
    (r : Request) (h : Handler) (hOk : h.assertionsHold r = true) :
    ((∃ data, (h.serve lower a s r).responses = [Response.Success 200 data])
        ∨ (∃ err, (h.serve lower a s r).responses = [Response.Failure 500 err]))
      ∧ (h.serve lower a s r).responses.length = 1
      ∧ (∀ status err, Response.Failure status err ∈ (h.serve lower a s r).responses →
          status = 500)
      ∧ (h.serve lower a s r).panicked = false := by
  have key : ∀ run : Run σ,
      ((∃ data, run.responses = [Response.Success 200 data])
        ∨ (∃ err, run.responses = [Response.Failure 500 err])) →
      run.panicked = false →
      ((∃ data, run.responses = [Response.Success 200 data])
          ∨ (∃ err, run.responses = [Response.Failure 500 err]))
        ∧ run.responses.length = 1
        ∧ (∀ status err, Response.Failure status err ∈ run.responses → status = 500)
        ∧ run.panicked = false := by
    intro run hResp hPanic
    refine ⟨hResp, ?_, ?_, hPanic⟩
    · rcases hResp with ⟨d, hd⟩ | ⟨e, he⟩
      · rw [hd]; rfl
      · rw [he]; rfl
    · intro status err hMem
      rcases hResp with ⟨d, hd⟩ | ⟨e, he⟩
      · rw [hd] at hMem
        simp at hMem
      · rw [he] at hMem
        simp at hMem
        exact hMem.1
  apply key
  · cases h <;>
      simp only [Handler.assertionsHold, Bool.and_eq_true, Option.isSome_iff_exists] at hOk <;>
      simp only [Handler.serve]
    · simp [handleGetOrganizationsByUser, StatusOK]
    · obtain ⟨role, hr⟩ := hOk
      rcases hdb : a.db.OrganizationGet s (r.vars "orgId") with ⟨err | org, s1⟩ <;>
        simp [handleGetOrganizationByUser, hr, hdb, StatusOK, StatusInternalServerError]
    · obtain ⟨name, hn⟩ := hOk
      rcases hdb : a.db.OrganizationCreate s (r.vars "userId") name with ⟨err | org, s1⟩ <;>
        simp [handleCreateOrganization, hn, hdb, StatusOK, StatusInternalServerError]
    · simp [handleGetOrganizationTeams, StatusOK]
    · simp [handleGetOrganizationUsers, StatusOK]
    · obtain ⟨name, hn⟩ := hOk
      rcases hdb : a.db.OrganizationTeamCreate s (r.vars "orgId") name with ⟨err | t, s1⟩ <;>
        simp [handleCreateOrganizationTeam, hn, hdb, StatusOK, StatusInternalServerError]
    · obtain ⟨⟨email, he⟩, ⟨role, hr⟩⟩ := hOk
      simp only [handleOrganizationAddUser, he, hr]
      repeat' split
      all_goals simp [StatusOK, StatusInternalServerError]
    · rcases hdb : a.db.OrganizationRemoveUser s (r.vars "orgId") (r.vars "userId") with
        ⟨err | _, s1⟩ <;>
        simp [handleOrganizationRemoveUser, hdb, StatusOK, StatusInternalServerError]
    · obtain ⟨⟨orgRole, ho⟩, ⟨teamRole, ht⟩⟩ := hOk
      simp only [handleGetOrganizationTeamByUser, ho, ht]
      repeat' split
      all_goals simp [StatusOK, StatusInternalServerError]
    · obtain ⟨⟨email, he⟩, ⟨role, hr⟩⟩ := hOk
      simp only [handleOrganizationTeamAddUser, he, hr]
      repeat' split
      all_goals simp [StatusOK, StatusInternalServerError]
  · cases h <;>
      simp only [Handler.assertionsHold, Bool.and_eq_true, Option.isSome_iff_exists] at hOk <;>
      simp only [Handler.serve]
    · simp [handleGetOrganizationsByUser]
    · obtain ⟨role, hr⟩ := hOk
      rcases hdb : a.db.OrganizationGet s (r.vars "orgId") with ⟨err | org, s1⟩ <;>
        simp [handleGetOrganizationByUser, hr, hdb]
    · obtain ⟨name, hn⟩ := hOk
      rcases hdb : a.db.OrganizationCreate s (r.vars "userId") name with ⟨err | org, s1⟩ <;>
        simp [handleCreateOrganization, hn, hdb]
    · simp [handleGetOrganizationTeams]
    · simp [handleGetOrganizationUsers]
    · obtain ⟨name, hn⟩ := hOk
      rcases hdb : a.db.OrganizationTeamCreate s (r.vars "orgId") name with ⟨err | t, s1⟩ <;>
        simp [handleCreateOrganizationTeam, hn, hdb]
    · obtain ⟨⟨email, he⟩, ⟨role, hr⟩⟩ := hOk
      simp only [handleOrganizationAddUser, he, hr]
      repeat' split
      all_goals simp
    · rcases hdb : a.db.OrganizationRemoveUser s (r.vars "orgId") (r.vars "userId") with
        ⟨err | _, s1⟩ <;>
        simp [handleOrganizationRemoveUser, hdb]
    · obtain ⟨⟨orgRole, ho⟩, ⟨teamRole, ht⟩⟩ := hOk
      simp only [handleGetOrganizationTeamByUser, ho, ht]
      repeat' split
      all_goals simp
    · obtain ⟨⟨email, he⟩, ⟨role, hr⟩⟩ := hOk
      simp only [handleOrganizationTeamAddUser, he, hr]
      repeat' split
      all_goals simp

/-- Witness for C10 on the sample ledger: adding `u3`, who is not in `acme`, to
team `eng` writes the one `Failure`. -/
theorem one_response_per_request_witness :
    Handler.assertionsHold (teamAddRequest "acme" "eng" "u3@x.com" "MEMBER")
        Handler.OrganizationTeamAddUser = true
      ∧ (Handler.serve Char.toLower ledgerApi sampleLedger
          (teamAddRequest "acme" "eng" "u3@x.com" "MEMBER")
          Handler.OrganizationTeamAddUser).responses.length = 1
      ∧ (Handler.serve Char.toLower ledgerApi sampleLedger
          (teamAddRequest "acme" "eng" "u3@x.com" "MEMBER")
          Handler.OrganizationTeamAddUser).panicked = false :=
  have h := one_response_per_request Char.toLower ledgerApi sampleLedger
    (teamAddRequest "acme" "eng" "u3@x.com" "MEMBER") Handler.OrganizationTeamAddUser rfl
  ⟨rfl, h.2.1, h.2.2.2⟩

end Thunderdome
